import Mathlib

set_option maxRecDepth 4000

/-!
Verification of the BJNP scanner-button client: a shallow embedding of the
wire codec (`bjnp` crate) and of the poll state machine (`src` crate),
with theorems settling the specification claims.

Bytes are modelled as natural numbers (callers keep them below 256); byte
buffers are lists of naturals.  Fallible parsing is modelled with `Except`.
-/

namespace Bjnp

/-! ## serdes.rs: error types and offset adjustment -/

/-- `FormatError` from serdes.rs: a format defect with byte position data. -/
inductive FormatError where
  | invalidByte (byte offset : Nat) (message : String)
  | invalidSlice (start stop : Nat) (message : String)
  deriving DecidableEq, Repr

/-- `ParseError` from serdes.rs: format defect or truncation. -/
inductive ParseError where
  | invalidFormat (e : FormatError)
  | unexpectedEnd (expected actual : Nat)
  deriving DecidableEq, Repr

/-- `OffsetError for FormatError`: shift the reported position. -/
def FormatError.offsetBy : FormatError → Nat → FormatError
  | .invalidByte b o m, k => .invalidByte b (o + k) m
  | .invalidSlice s e m, k => .invalidSlice (s + k) (e + k) m

/-- `OffsetError for ParseError`: shift position / expected size. -/
def ParseError.offsetBy : ParseError → Nat → ParseError
  | .invalidFormat e, k => .invalidFormat (e.offsetBy k)
  | .unexpectedEnd exp act, k => .unexpectedEnd (exp + k) act

/-! ## Big-endian integer helpers -/

/-- `u16::to_be_bytes` (value taken mod 2^16). -/
def u16Be (n : Nat) : List Nat := [n / 256 % 256, n % 256]

/-- `u32::to_be_bytes` (value taken mod 2^32). -/
def u32Be (n : Nat) : List Nat :=
  [n / 16777216 % 256, n / 65536 % 256, n / 256 % 256, n % 256]

/-- `u16::from_be_bytes` of the two bytes at index `i`. -/
def readBe16 (buf : List Nat) (i : Nat) : Nat :=
  buf.getD i 0 * 256 + buf.getD (i + 1) 0

/-- `u32::from_be_bytes` of the four bytes at index `i`. -/
def readBe32 (buf : List Nat) (i : Nat) : Nat :=
  buf.getD i 0 * 16777216 + buf.getD (i + 1) 0 * 65536 +
    buf.getD (i + 2) 0 * 256 + buf.getD (i + 3) 0

/-! ## header.rs -/

/-- `PacketType` enum. -/
inductive PacketType where
  | printerCommand | scannerCommand | printerResponse | scannerResponse
  deriving DecidableEq, Repr

/-- Discriminant byte of each `PacketType` variant. -/
def PacketType.toByte : PacketType → Nat
  | .printerCommand => 0x01
  | .scannerCommand => 0x02
  | .printerResponse => 0x81
  | .scannerResponse => 0x82

/-- `TryFrom<u8> for PacketType` generated by `make_u8_field`. -/
def packetTypeOfByte (value : Nat) : Except FormatError PacketType :=
  if value = 0x01 then .ok .printerCommand
  else if value = 0x02 then .ok .scannerCommand
  else if value = 0x81 then .ok .printerResponse
  else if value = 0x82 then .ok .scannerResponse
  else .error (.invalidByte value 0 "unknown packet type")

/-- `PayloadType` enum. -/
inductive PayloadType where
  | discover | startScan | jobDetails | close | read | write | getId | poll
  deriving DecidableEq, Repr

/-- Discriminant byte of each `PayloadType` variant. -/
def PayloadType.toByte : PayloadType → Nat
  | .discover => 0x01
  | .startScan => 0x02
  | .jobDetails => 0x10
  | .close => 0x11
  | .read => 0x20
  | .write => 0x21
  | .getId => 0x30
  | .poll => 0x32

/-- `TryFrom<u8> for PayloadType` generated by `make_u8_field`. -/
def payloadTypeOfByte (value : Nat) : Except FormatError PayloadType :=
  if value = 0x01 then .ok .discover
  else if value = 0x02 then .ok .startScan
  else if value = 0x10 then .ok .jobDetails
  else if value = 0x11 then .ok .close
  else if value = 0x20 then .ok .read
  else if value = 0x21 then .ok .write
  else if value = 0x30 then .ok .getId
  else if value = 0x32 then .ok .poll
  else .error (.invalidByte value 0 "unknown payload type")

/-- `Header`: the semantic record.  `jobId` is the raw 16-bit field
(`Option<NonZeroU16>` in the source, with 0 meaning absent). -/
structure Header where
  packetType : PacketType
  payloadType : PayloadType
  error : Nat
  sequence : Nat
  jobId : Nat
  payloadSize : Nat
  deriving DecidableEq, Repr

/-- `From<&Header> for RawHeader` followed by the byte-for-byte dump of the
packed struct: magic, packet/payload type, error, reserved zero, sequence,
job id, payload length. -/
def rawHeaderBytes (h : Header) : List Nat :=
  [0x42, 0x4a, 0x4e, 0x50] ++
    [h.packetType.toByte, h.payloadType.toByte, h.error, 0] ++
    u16Be h.sequence ++ u16Be h.jobId ++ u32Be h.payloadSize

/-- `TryFrom<&RawHeader> for Header`: magic check, then the enum fields
(`packet_type` converted without offset adjustment, `payload_type` offset
by its position 5), then the integer fields. -/
def headerOfBytes (buf : List Nat) : Except FormatError Header :=
  if buf.take 4 = [0x42, 0x4a, 0x4e, 0x50] then do
    let packetType ← packetTypeOfByte (buf.getD 4 0)
    let payloadType ← (payloadTypeOfByte (buf.getD 5 0)).mapError (·.offsetBy 5)
    .ok { packetType := packetType
          payloadType := payloadType
          error := buf.getD 6 0
          sequence := readBe16 buf 8
          jobId := readBe16 buf 10
          payloadSize := readBe32 buf 12 }
  else
    .error (.invalidSlice 0 4 "magic bytes is not b'BJNP'")

/-- `RawHeader` is 16 bytes. -/
def headerSize : Nat := 16

/-- Blanket `Deserialize` derived from `SizedDeserialize` for `Header`:
length check then exact-size conversion. -/
def headerDeserialize (buf : List Nat) : Except ParseError (Header × Nat) :=
  if buf.length < headerSize then
    .error (.unexpectedEnd headerSize buf.length)
  else
    match headerOfBytes (buf.take headerSize) with
    | .ok h => .ok (h, headerSize)
    | .error e => .error (.invalidFormat e)

/-! ## poll/command.rs: `Host` -/

/-- `char::len_utf16` of a scalar value. -/
def lenUtf16 (c : Nat) : Nat := if c < 0x10000 then 1 else 2

/-- `char::encode_utf16` of a scalar value (one unit, or a surrogate pair). -/
def encodeUtf16Char (c : Nat) : List Nat :=
  if c < 0x10000 then [c]
  else [0xD800 + (c - 0x10000) / 0x400, 0xDC00 + (c - 0x10000) % 0x400]

/-- Number of UTF-16 code units of a string (list of scalar values). -/
def utf16Len (s : List Nat) : Nat := (s.map lenUtf16).sum

/-- UTF-16 code units of a string. -/
def utf16Encode (s : List Nat) : List Nat := s.flatMap encodeUtf16Char

/-- Overwrite `buf[pos .. pos + xs.length]` with `xs`. -/
def writeAt (buf : List Nat) (pos : Nat) (xs : List Nat) : List Nat :=
  buf.take pos ++ xs ++ buf.drop (pos + xs.length)

/-- Loop state of `Host::new`: the 32-unit buffer, the overflow flag, the
number of code units written, and the `u8` packing the previous four
character lengths (two bits each). -/
structure HostScan where
  buf : List Nat
  overflowing : Bool
  curLen : Nat
  prevLen : Nat
  deriving Repr

/-- The encoding loop of `Host::new`: encode each character at `curLen`,
pack its length into `prevLen` (shifting inside a `u8`), and stop with the
overflow flag once the 32-unit buffer would be exceeded (the overflowing
character is counted in `curLen` but not written). -/
def hostLoop : List Nat → HostScan → HostScan
  | [], st => st
  | c :: cs, st =>
    let curStart := st.curLen
    let newLen := st.curLen + lenUtf16 c
    let newPrev := st.prevLen * 4 % 256 + lenUtf16 c
    if newLen > 32 then
      { st with overflowing := true, curLen := newLen, prevLen := newPrev }
    else
      hostLoop cs
        { buf := writeAt st.buf curStart (encodeUtf16Char c)
          overflowing := st.overflowing
          curLen := newLen
          prevLen := newPrev }

/-- The back-off loop of `Host::new`: while more than `32 - 3` units are
used, drop the last recorded character length.  The Rust `while` loop
terminates within `curLen` iterations in every state reachable from the
encoding loop (established by the lemmas below), so it is run here with
`curLen` as fuel. -/
def backOff : Nat → Nat → Nat → Nat × Nat
  | 0, curLen, prevLen => (curLen, prevLen)
  | fuel + 1, curLen, prevLen =>
    if curLen > 32 - 3 then backOff fuel (curLen - prevLen % 4) (prevLen / 4)
    else (curLen, prevLen)

/-- `Host::new`, up to the final byte-order pass: the 32 big-endian-pending
UTF-16 units.  On overflow, three `.` units (0x2E) follow the retained
prefix and the remainder is zero-filled. -/
def hostNewUnits (s : List Nat) : List Nat :=
  let st := hostLoop s
    { buf := List.replicate 32 0, overflowing := false, curLen := 0, prevLen := 0 }
  if st.overflowing then
    let fin := (backOff st.curLen st.curLen st.prevLen).1
    writeAt (writeAt st.buf fin [46, 46, 46]) (fin + 3)
      (List.replicate (32 - (fin + 3)) 0)
  else st.buf

/-- The 64-byte stored form of `Host::new`: each unit converted to
big-endian byte order. -/
def hostBytes (s : List Nat) : List Nat := (hostNewUnits s).flatMap u16Be

/-- `Host`: the fixed 64-byte buffer (`[u8; 64]` in the source; values
constructed by `hostNew` always have 64 entries). -/
structure Host where
  bytes : List Nat
  deriving DecidableEq, Repr

/-- `Host::new`. -/
def hostNew (s : List Nat) : Host := ⟨hostBytes s⟩

/-- The longest prefix of `s` whose UTF-16 encoding fits in `limit` code
units (the spec-side notion used by the truncation claim; characters are
never split, so surrogate pairs stay whole). -/
def longestFit (limit : Nat) : List Nat → List Nat
  | [] => []
  | c :: cs => if lenUtf16 c ≤ limit then c :: longestFit (limit - lenUtf16 c) cs else []

/-! ## poll/command.rs: commands -/

/-- `PollType` enum (a 16-bit discriminant). -/
inductive PollType where
  | empty | hostOnly | full | reset
  deriving DecidableEq, Repr

/-- Discriminant of each `PollType` variant. -/
def PollType.toU16 : PollType → Nat
  | .empty => 0x00
  | .hostOnly => 0x01
  | .full => 0x02
  | .reset => 0x05

/-- `TryFrom<u16> for PollType` generated by `make_wider_field`: unknown
values give `InvalidSlice` over the two-byte span. -/
def pollTypeOfU16 (value : Nat) : Except FormatError PollType :=
  if value = 0x00 then .ok .empty
  else if value = 0x01 then .ok .hostOnly
  else if value = 0x02 then .ok .full
  else if value = 0x05 then .ok .reset
  else .error (.invalidSlice 0 2 "unknown poll type")

/-- `PrimitiveDateTime`, restricted to the fields the wire format uses.
The `time` crate bounds the components (year within -9999..9999, month
1..12, and so on); theorems state the bounds they need explicitly. -/
structure DateTime where
  year : Nat
  month : Nat
  day : Nat
  hour : Nat
  minute : Nat
  second : Nat
  deriving DecidableEq, Repr

/-- Decimal ASCII digits of `n`, zero-padded on the left to width `w`
(matching the `time` format description components, which pad with zeros
to their width). -/
def padDigits (w n : Nat) : List Nat :=
  List.replicate (w - (Nat.digits 10 n).length) 48 ++
    ((Nat.digits 10 n).reverse.map (fun d => d + 48))

/-- `format_into` with format `[year][month][day][hour][minute][second]`:
the 14 ASCII bytes `YYYYMMDDHHMMSS`. -/
def formatDatetime (dt : DateTime) : List Nat :=
  padDigits 4 dt.year ++ padDigits 2 dt.month ++ padDigits 2 dt.day ++
    padDigits 2 dt.hour ++ padDigits 2 dt.minute ++ padDigits 2 dt.second

/-- `Command` (the published `poll::Command` wrapping `InnerCommand`): the
four poll command variants with their fields. -/
inductive Command where
  | empty
  | hostOnly (host : Host)
  | full (sessionId : Nat) (host : Host) (datetime : DateTime)
  | reset (sessionId : Nat) (host : Host) (actionId : Nat)
  deriving DecidableEq, Repr

/-- `Command::poll_type`. -/
def Command.pollType : Command → PollType
  | .empty => .empty
  | .hostOnly _ => .hostOnly
  | .full _ _ _ => .full
  | .reset _ _ _ => .reset

/-- Byte dump of the packed raw body of each variant (`RawEmptyCommand`,
`RawHostOnlyCommand`, `RawFullCommand`, `RawResetCommand`), built by the
`From` conversions in the source. -/
def commandBody : Command → List Nat
  | .empty => List.replicate 78 0
  | .hostOnly h => List.replicate 6 0 ++ h.bytes ++ List.replicate 4 0
  | .full sid h dt =>
    List.replicate 2 0 ++ u32Be sid ++ h.bytes ++ [0, 0, 0, 0x14] ++
      List.replicate 20 0 ++ [0, 0, 0, 0x10] ++ formatDatetime dt ++
      List.replicate 2 0
  | .reset sid h aid =>
    List.replicate 2 0 ++ u32Be sid ++ h.bytes ++ [0, 0, 0, 0x14] ++
      u32Be aid ++ List.replicate 20 0

/-- `Serialize for Command`: the big-endian 16-bit poll type, then the
variant body. -/
def commandSerialize (c : Command) : List Nat :=
  u16Be c.pollType.toU16 ++ commandBody c

/-- `Serialize::size for Command`: `2 + size_of` of the raw body
(`RawEmptyCommand` is 78 bytes, `RawHostOnlyCommand` 74, `RawFullCommand`
114, `RawResetCommand` 98; all are packed). -/
def commandSize : Command → Nat
  | .empty => 2 + 78
  | .hostOnly _ => 2 + 74
  | .full _ _ _ => 2 + 114
  | .reset _ _ _ => 2 + 98

/-- `TryFrom<&RawFullCommand> for FullCommand`: parse the 14 datetime
bytes.  A parse failure is `InvalidSlice` over `span_of!(RawFullCommand,
datetime)` = 98..112.  (The `time` parser also rejects day numbers invalid
for the given month; on those the source's later `unwrap` would panic, so
they are treated as plain range checks here.) -/
def fullOfBytes (body : List Nat) : Except FormatError Command :=
  let dtBytes := (body.drop 98).take 14
  if dtBytes.all (fun b => 48 ≤ b ∧ b ≤ 57) then
    let num := fun (i n : Nat) =>
      (List.range n).foldl (fun acc j => acc * 10 + (dtBytes.getD (i + j) 0 - 48)) 0
    let dt : DateTime :=
      { year := num 0 4, month := num 4 2, day := num 6 2
        hour := num 8 2, minute := num 10 2, second := num 12 2 }
    if 1 ≤ dt.month ∧ dt.month ≤ 12 ∧ 1 ≤ dt.day ∧ dt.day ≤ 31 ∧
        dt.hour ≤ 23 ∧ dt.minute ≤ 59 ∧ dt.second ≤ 59 then
      .ok (.full (readBe32 body 2) ⟨(body.drop 6).take 64⟩ dt)
    else .error (.invalidSlice 98 112 "invalid datetime string")
  else .error (.invalidSlice 98 112 "invalid datetime string")

/-- Body size of each raw command struct, by poll type. -/
def rawCommandSize : PollType → Nat
  | .empty => 78
  | .hostOnly => 74
  | .full => 114
  | .reset => 98

/-- `Deserialize for Command`: read the 16-bit poll type (errors on it are
not offset: the discriminant is at offset 0), then dispatch to the variant
parser and offset its result by 2. -/
def commandDeserialize (buffer : List Nat) : Except ParseError (Command × Nat) :=
  if buffer.length < 2 then .error (.unexpectedEnd 2 buffer.length)
  else
    match pollTypeOfU16 (readBe16 buffer 0) with
    | .error e => .error (.invalidFormat e)
    | .ok pollType =>
      let body := buffer.drop 2
      let size := rawCommandSize pollType
      let result : Except ParseError (Command × Nat) :=
        if body.length < size then .error (.unexpectedEnd size body.length)
        else
          match pollType with
          | .empty => .ok (.empty, size)
          | .hostOnly => .ok (.hostOnly ⟨(body.drop 6).take 64⟩, size)
          | .full =>
            match fullOfBytes (body.take size) with
            | .ok c => .ok (c, size)
            | .error e => .error (.invalidFormat e)
          | .reset =>
            .ok (.reset (readBe32 body 2) ⟨(body.drop 6).take 64⟩ (readBe32 body 74), size)
      match result with
      | .ok (c, n) => .ok (c, n + 2)
      | .error e => .error (e.offsetBy 2)

/-! ## poll/response.rs -/

/-- `ColorMode`. -/
inductive ColorMode where
  | color | mono
  deriving DecidableEq, Repr

/-- `TryFrom<u8> for ColorMode`. -/
def colorModeOfByte (value : Nat) : Except FormatError ColorMode :=
  if value = 0x01 then .ok .color
  else if value = 0x02 then .ok .mono
  else .error (.invalidByte value 0 "unknown color mode")

/-- `Size` (page size). -/
inductive Size where
  | a4 | letter | size10x15 | size13x18 | auto
  deriving DecidableEq, Repr

/-- `TryFrom<u8> for Size`. -/
def sizeOfByte (value : Nat) : Except FormatError Size :=
  if value = 0x01 then .ok .a4
  else if value = 0x02 then .ok .letter
  else if value = 0x08 then .ok .size10x15
  else if value = 0x09 then .ok .size13x18
  else if value = 0x0b then .ok .auto
  else .error (.invalidByte value 0 "unknown page size")

/-- `Format`. -/
inductive Format where
  | jpeg | tiff | pdf | kompaktPdf
  deriving DecidableEq, Repr

/-- `TryFrom<u8> for Format`. -/
def formatOfByte (value : Nat) : Except FormatError Format :=
  if value = 0x01 then .ok .jpeg
  else if value = 0x02 then .ok .tiff
  else if value = 0x03 then .ok .pdf
  else if value = 0x04 then .ok .kompaktPdf
  else .error (.invalidByte value 0 "unknown format")

/-- `DPI`. -/
inductive Dpi where
  | dpi75 | dpi150 | dpi300 | dpi600
  deriving DecidableEq, Repr

/-- `TryFrom<u8> for DPI`. -/
def dpiOfByte (value : Nat) : Except FormatError Dpi :=
  if value = 0x01 then .ok .dpi75
  else if value = 0x02 then .ok .dpi150
  else if value = 0x03 then .ok .dpi300
  else if value = 0x04 then .ok .dpi600
  else .error (.invalidByte value 0 "unknown DPI")

/-- `Source`. -/
inductive Source where
  | flatbed | autoDocumentFeeder
  deriving DecidableEq, Repr

/-- `TryFrom<u8> for Source`. -/
def sourceOfByte (value : Nat) : Except FormatError Source :=
  if value = 0x01 then .ok .flatbed
  else if value = 0x02 then .ok .autoDocumentFeeder
  else .error (.invalidByte value 0 "unknown source")

/-- `FeederType`. -/
inductive FeederType where
  | simplex | duplex
  deriving DecidableEq, Repr

/-- `TryFrom<u8> for FeederType`. -/
def feederTypeOfByte (value : Nat) : Except FormatError FeederType :=
  if value = 0x01 then .ok .simplex
  else if value = 0x02 then .ok .duplex
  else .error (.invalidByte value 0 "unknown feeder type")

/-- `FeederOrientation`. -/
inductive FeederOrientation where
  | portrait | landscape
  deriving DecidableEq, Repr

/-- `TryFrom<u8> for FeederOrientation`. -/
def feederOrientationOfByte (value : Nat) : Except FormatError FeederOrientation :=
  if value = 0x01 then .ok .portrait
  else if value = 0x02 then .ok .landscape
  else .error (.invalidByte value 0 "unknown feeder orientation")

/-- `Interrupt`: the decoded 20-byte descriptor. -/
structure Interrupt where
  colorMode : ColorMode
  source : Source
  feederType : Option FeederType
  size : Size
  format : Format
  dpi : Dpi
  feederOrientation : Option FeederOrientation
  deriving DecidableEq, Repr

/-- `TryFrom<&RawInterrupt> for Interrupt` over the 20-byte descriptor:
fields at fixed positions (color 7, source 8, feeder type 9, size 10,
format 11, dpi 12, feeder orientation 16); feeder fields are absent when
their byte is zero.  Conversions are evaluated in source order (feeder
type, feeder orientation, then the struct literal fields) and none of the
resulting errors is offset. -/
def interruptOfBytes (buf : List Nat) : Except FormatError Interrupt := do
  let feederType ←
    if buf.getD 9 0 ≠ 0 then (feederTypeOfByte (buf.getD 9 0)).map some
    else .ok none
  let feederOrientation ←
    if buf.getD 16 0 ≠ 0 then (feederOrientationOfByte (buf.getD 16 0)).map some
    else .ok none
  let colorMode ← colorModeOfByte (buf.getD 7 0)
  let source ← sourceOfByte (buf.getD 8 0)
  let size ← sizeOfByte (buf.getD 10 0)
  let format ← formatOfByte (buf.getD 11 0)
  let dpi ← dpiOfByte (buf.getD 12 0)
  .ok { colorMode := colorMode, source := source, feederType := feederType
        size := size, format := format, dpi := dpi
        feederOrientation := feederOrientation }

/-- `poll::Response` (the decoded poll response). -/
structure PollResponse where
  status : Nat
  sessionId : Option Nat
  actionId : Option Nat
  interrupt : Option Interrupt
  deriving DecidableEq, Repr

/-- `TryFrom<&RawResponse> for Response` over the 36-byte raw layout
(status 0..4, session id 4..8, constant 8..12, action id 12..16,
interrupt 16..36): when bit 0x00008000 of the status is set, the action id
and interrupt are decoded and the session id is absent; otherwise only the
session id is kept. -/
def responseOfBytes (buf : List Nat) : Except FormatError PollResponse :=
  let status := readBe32 buf 0
  if status &&& 0x00008000 ≠ 0 then do
    let interrupt ← interruptOfBytes ((buf.drop 16).take 20)
    .ok { status := status, sessionId := none
          actionId := some (readBe32 buf 12), interrupt := some interrupt }
  else
    .ok { status := status, sessionId := some (readBe32 buf 4)
          actionId := none, interrupt := none }

/-- `RawResponse` is 36 bytes. -/
def responseSize : Nat := 36

/-- Blanket `Deserialize` for `poll::Response`. -/
def responseDeserialize (buf : List Nat) : Except ParseError (PollResponse × Nat) :=
  if buf.length < responseSize then
    .error (.unexpectedEnd responseSize buf.length)
  else
    match responseOfBytes (buf.take responseSize) with
    | .ok r => .ok (r, responseSize)
    | .error e => .error (.invalidFormat e)

/-! ## identity.rs

The identity mapping is kept as the list of key/value pairs in wire order
(the source collects them into a `HashMap`; the keys of the inputs treated
here are distinct, so the two views agree).  Keys and values are byte
lists (the source keeps them as UTF-8 `String`s). -/

/-- Split a byte string at every separator, keeping interior empties
(`str::split`). -/
def splitAll (sep : Nat) : List Nat → List (List Nat)
  | [] => [[]]
  | c :: cs =>
    match splitAll sep cs with
    | [] => [[]]
    | r :: rs => if c = sep then [] :: r :: rs else (c :: r) :: rs

/-- `str::split_terminator`: like `split`, but a final empty substring
(from a trailing separator or an empty input) is dropped. -/
def splitTerm (sep : Nat) (l : List Nat) : List (List Nat) :=
  let parts := splitAll sep l
  if parts.getLast? = some [] then parts.dropLast else parts

/-- `str::split_once`: split at the first separator, if any. -/
def splitOnce (sep : Nat) : List Nat → Option (List Nat × List Nat)
  | [] => none
  | c :: cs =>
    if c = sep then some ([], cs)
    else (splitOnce sep cs).map (fun p => (c :: p.1, p.2))

/-- Whether a byte is a UTF-8 continuation byte. -/
def utf8Cont (b : Nat) : Bool := 0x80 ≤ b && b ≤ 0xBF

/-- Valid range of the second byte of a three-byte UTF-8 sequence. -/
def utf8SecondOf3 (b b2 : Nat) : Bool :=
  if b = 0xE0 then 0xA0 ≤ b2 && b2 ≤ 0xBF
  else if b = 0xED then 0x80 ≤ b2 && b2 ≤ 0x9F
  else utf8Cont b2

/-- Valid range of the second byte of a four-byte UTF-8 sequence. -/
def utf8SecondOf4 (b b2 : Nat) : Bool :=
  if b = 0xF0 then 0x90 ≤ b2 && b2 ≤ 0xBF
  else if b = 0xF4 then 0x80 ≤ b2 && b2 ≤ 0x8F
  else utf8Cont b2

/-- `str::from_utf8` validation outcome: `none` when the bytes are valid;
otherwise `some (validUpTo, errorLen?)` mirroring `Utf8Error`
(`errorLen = none` when the input ends inside a sequence). -/
def utf8Scan : List Nat → Nat → Option (Nat × Option Nat)
  | [], _ => none
  | b :: rest, pos =>
    if b < 0x80 then utf8Scan rest (pos + 1)
    else if 0xC2 ≤ b && b ≤ 0xDF then
      match rest with
      | [] => some (pos, none)
      | b2 :: r =>
        if utf8Cont b2 then utf8Scan r (pos + 2) else some (pos, some 1)
    else if 0xE0 ≤ b && b ≤ 0xEF then
      match rest with
      | [] => some (pos, none)
      | b2 :: rest2 =>
        if utf8SecondOf3 b b2 then
          match rest2 with
          | [] => some (pos, none)
          | b3 :: r =>
            if utf8Cont b3 then utf8Scan r (pos + 3) else some (pos, some 2)
        else some (pos, some 1)
    else if 0xF0 ≤ b && b ≤ 0xF4 then
      match rest with
      | [] => some (pos, none)
      | b2 :: rest2 =>
        if utf8SecondOf4 b b2 then
          match rest2 with
          | [] => some (pos, none)
          | b3 :: rest3 =>
            if utf8Cont b3 then
              match rest3 with
              | [] => some (pos, none)
              | b4 :: r =>
                if utf8Cont b4 then utf8Scan r (pos + 4) else some (pos, some 3)
            else some (pos, some 2)
        else some (pos, some 1)
    else some (pos, some 1)

/-- `Display for identity::Response` followed by the length prefix:
`Serialize` writes `as_str_len` (the total length of the `KEY:VALUE;`
records, NOT counting the two length bytes) as a big-endian `u16`, then
the records. -/
def identitySerialize (pairs : List (List Nat × List Nat)) : List Nat :=
  let asStrLen := (pairs.map (fun kv => kv.1.length + kv.2.length + 2)).sum
  u16Be asStrLen ++ pairs.flatMap (fun kv => kv.1 ++ [58] ++ kv.2 ++ [59])

/-- `Deserialize for identity::Response`: a 16-bit length that counts
itself (so at least 2), then that many minus two bytes of UTF-8 text cut
into `KEY:VALUE;` records; records without `:` are dropped. -/
def identityDeserialize (buffer : List Nat) :
    Except ParseError (List (List Nat × List Nat) × Nat) :=
  if buffer.length < 2 then .error (.unexpectedEnd 2 buffer.length)
  else
    let identityLen := readBe16 buffer 0
    let body := buffer.drop 2
    if identityLen < 2 then
      .error (.invalidFormat
        (.invalidSlice 0 2 "invalid length of identity, should always be >=2"))
    else
      let textLen := identityLen - 2
      if body.length < textLen then
        .error ((ParseError.unexpectedEnd textLen body.length).offsetBy 2)
      else
        let text := body.take textLen
        match utf8Scan text 0 with
        | some (validUpTo, some errLen) =>
          if errLen > 1 then
            .error (.invalidFormat
              (.invalidSlice validUpTo (validUpTo + errLen) "invalid UTF-8 bytes"))
          else
            .error (.invalidFormat
              (.invalidByte (body.getD (validUpTo - 1) 0) (validUpTo - 1)
                "invalid UTF-8 byte"))
        | some (_, none) => .error (.unexpectedEnd (textLen + 1) textLen)
        | none =>
          .ok ((splitTerm 59 text).filterMap (splitOnce 58), textLen + 2)

/-! ## packet.rs and channel.rs -/

/-- `Serialize for Packet`: header then payload. -/
def packetSerialize (h : Header) (payload : List Nat) : List Nat :=
  rawHeaderBytes h ++ payload

/-- The datagram `Channel::send` emits: `PacketBuilder::new(ScannerCommand,
payload_type).sequence(sequence).build(payload)` serialized (error 0, no
job id, `payload_size` from the payload). -/
def channelDatagram (sequence : Nat) (payloadType : PayloadType)
    (payload : List Nat) : List Nat :=
  packetSerialize
    { packetType := .scannerCommand, payloadType := payloadType, error := 0
      sequence := sequence, jobId := 0, payloadSize := payload.length }
    payload

/-- `Channel`: the 16-bit wrapping sequence counter (the socket itself is
outside the model). -/
structure Channel where
  sequence : Nat
  deriving DecidableEq, Repr

/-- `Channel::new`: the counter starts at zero. -/
def channelNew : Channel := ⟨0⟩

/-- The sequence-counter effect of one `Channel::send`: the counter is
incremented (wrapping at 2^16) only when the socket send succeeded. -/
def sendStep (ch : Channel) (sendOk : Bool) : Channel :=
  if sendOk then ⟨(ch.sequence + 1) % 65536⟩ else ch

/-- `N` successful sends in a row. -/
def sendN (ch : Channel) : Nat → Channel
  | 0 => ch
  | n + 1 => sendN (sendStep ch true) n

/-- `Channel::reset_sequence`. -/
def resetSequence (_ch : Channel) : Channel := ⟨0⟩

/-- `PacketHeaderOnly::parse`: header-deserialize, then slice the declared
payload bytes. -/
def phoParse (buffer : List Nat) : Except ParseError (Header × List Nat) :=
  match headerDeserialize buffer with
  | .error e => .error e
  | .ok (h, offset) =>
    if offset + h.payloadSize ≤ buffer.length then
      .ok (h, (buffer.drop offset).take h.payloadSize)
    else .error (.unexpectedEnd (offset + h.payloadSize) buffer.length)

/-- Outcome of `Channel::recv` (the source wraps everything in `anyhow`;
the three cases are kept apart here). -/
inductive RecvOutcome (α : Type) where
  | ok (value : α)
  | remoteError (code : Nat)
  | parseFailed (e : ParseError)
  deriving DecidableEq, Repr

/-- `Channel::recv`, given the received datagram and the payload decoder
of the caller-chosen type: header-parse; `ensure!(error == 0 ||
payload_size > 0)` (its failure names the remote error code); then decode
the payload slice. -/
def channelRecv {α : Type} (dec : List Nat → Except ParseError (α × Nat))
    (buffer : List Nat) : RecvOutcome α :=
  match phoParse buffer with
  | .error e => .parseFailed e
  | .ok (h, payload) =>
    if h.error = 0 ∨ h.payloadSize > 0 then
      match dec payload with
      | .ok (v, _) => .ok v
      | .error e => .parseFailed e
    else .remoteError h.error

/-! ## poll.rs: the listener state machine

The backoff arithmetic of `transit_err` is
`(dur.as_secs() as f32 * self.config.backoff_factor) as u64` in the
source: a `u64` to IEEE binary32 conversion, a binary32 multiplication,
and a saturating truncation back to `u64`.  Binary32 values are modelled
as sign/significand/exponent triples with a 24-bit significand and
round-to-nearest-even, with an unbounded exponent range (the
subnormal-underflow and infinity-overflow edges of IEEE 754 are outside
the range these claims exercise). -/

/-- Fuel-driven floor of log base 2 (structural, so the kernel can
evaluate it; `natLog2 n` is exact for `n < 2^64`). -/
def log2Fuel : Nat → Nat → Nat
  | 0, _ => 0
  | fuel + 1, n => if n ≤ 1 then 0 else log2Fuel fuel (n / 2) + 1

/-- Floor of log base 2 for 64-bit values. -/
def natLog2 (n : Nat) : Nat := log2Fuel 64 n

/-- Round `n` to the nearest multiple of `m`, ties to the even multiple
(IEEE round-to-nearest-even on a scaled integer). -/
def rne (n m : Nat) : Nat :=
  let q := n / m
  let r := n % m
  if 2 * r < m then q * m
  else if 2 * r > m then (q + 1) * m
  else if q % 2 = 0 then q * m else (q + 1) * m

/-- A binary32 value `(-1)^neg * mantissa * 2^exp`; `mantissa` is zero or
lies in `[2^23, 2^24)`. -/
structure F32 where
  neg : Bool
  mantissa : Nat
  exp : Int
  deriving DecidableEq, Repr

/-- The rational value of a binary32 triple. -/
def F32.toRat (x : F32) : ℚ :=
  let mag : ℚ :=
    if 0 ≤ x.exp then (x.mantissa : ℚ) * ((2 ^ x.exp.toNat : ℕ) : ℚ)
    else (x.mantissa : ℚ) / ((2 ^ (-x.exp).toNat : ℕ) : ℚ)
  if x.neg then -mag else mag

/-- Rust `n as f32` for `n : u64`: round to 24 significand bits, nearest,
ties to even. -/
def f32OfU64 (n : Nat) : F32 :=
  if n = 0 then ⟨false, 0, 0⟩
  else
    let b := natLog2 n
    if b ≤ 23 then ⟨false, n * 2 ^ (23 - b), (b : Int) - 23⟩
    else
      let m := rne n (2 ^ (b - 23))
      let q := m / 2 ^ (b - 23)
      if q = 2 ^ 24 then ⟨false, 2 ^ 23, (b : Int) - 22⟩
      else ⟨false, q, (b : Int) - 23⟩

/-- Binary32 multiplication: exact product of the significands, rounded
back to 24 bits (round-to-nearest-even). -/
def f32Mul (x y : F32) : F32 :=
  if x.mantissa = 0 ∨ y.mantissa = 0 then ⟨xor x.neg y.neg, 0, 0⟩
  else
    let p := x.mantissa * y.mantissa
    let b := natLog2 p
    let m := rne p (2 ^ (b - 23))
    let q := m / 2 ^ (b - 23)
    if q = 2 ^ 24 then ⟨xor x.neg y.neg, 2 ^ 23, x.exp + y.exp + (b : Int) - 22⟩
    else ⟨xor x.neg y.neg, q, x.exp + y.exp + (b : Int) - 23⟩

/-- Rust `x as u64` for `x : f32`: truncate toward zero, saturating at 0
and `u64::MAX`. -/
def f32ToU64 (x : F32) : Nat :=
  if x.neg ∨ x.mantissa = 0 then 0
  else
    let v :=
      if 0 ≤ x.exp then x.mantissa * 2 ^ x.exp.toNat
      else x.mantissa / 2 ^ (-x.exp).toNat
    min (2 ^ 64 - 1) v

/-- `State` of the listener: `Backoff` carries the duration in seconds. -/
inductive PollState where
  | init | poll | backoff (d : Nat)
  deriving DecidableEq, Repr

/-- `ListenConfig` (the fields the state machine consults). -/
structure ListenConfig where
  initialMaxWaiting : Nat
  backoffFactor : F32
  backoffMaximum : Nat
  deriving DecidableEq, Repr

/-- `Listener::transit_err`: `Init` backs off by the initial maximum
waiting time; `Poll` falls back to `Init`; `Backoff(d)` grows the
duration by the binary32 product with the backoff factor, capped at the
configured maximum. -/
def transitErr (cfg : ListenConfig) : PollState → PollState
  | .init => .backoff cfg.initialMaxWaiting
  | .poll => .init
  | .backoff d =>
    .backoff (min cfg.backoffMaximum
      (f32ToU64 (f32Mul (f32OfU64 d) cfg.backoffFactor)))

/-- The state `Listener::next` returns on success, from each state
(`Ok(State::Poll)` in all three arms). -/
def nextOkState : PollState → PollState
  | .init => .poll
  | .poll => .poll
  | .backoff _ => .poll

/-- Observable effects of the `State::Poll` arm of `Listener::next` after
the poll response has been decoded: the stored session id after the round,
whether the external command was launched, and the `Reset` command sent
back (if any). -/
structure PollEffects where
  newSessionId : Nat
  launched : Bool
  resetCommand : Option Command
  deriving DecidableEq, Repr

/-- The `State::Poll` arm, given the stored session id, the decoded
response, and the configured hostname: the stored session id is replaced
when the response carries one; only when `status == 0x8000` exactly is the
external command launched (when an interrupt is present) and a `Reset`
command (stored session id, hostname, `action_id.unwrap_or(0)`) sent. -/
def pollRoundStep (sessionId : Nat) (resp : PollResponse) (host : Host) :
    PollEffects :=
  let sid := match resp.sessionId with
    | some s => s
    | none => sessionId
  if resp.status = 0x8000 then
    { newSessionId := sid
      launched := resp.interrupt.isSome
      resetCommand := some (.reset sid host ((resp.actionId).getD 0)) }
  else
    { newSessionId := sid, launched := false, resetCommand := none }

/-- Host length constraint of the variants that carry a host (`Host` is
`[u8; 64]` in the source, so every value has exactly 64 bytes). -/
def commandHostLen : Command → Prop
  | .empty => True
  | .hostOnly h => h.bytes.length = 64
  | .full _ h _ => h.bytes.length = 64
  | .reset _ h _ => h.bytes.length = 64

/-- Datetime component bounds guaranteed by the `time` crate's
`PrimitiveDateTime` (in the nonnegative-year range, where the 14-byte
datetime formatting of the source cannot overflow). -/
def commandDatetimeBounded : Command → Prop
  | .full _ _ dt =>
    dt.year < 10000 ∧ dt.month < 100 ∧ dt.day < 100 ∧ dt.hour < 100 ∧
      dt.minute < 100 ∧ dt.second < 100
  | _ => True

/-- A 36-byte poll response buffer with interrupt status `0x8000` and the
seven interrupt enum bytes chosen by the caller (the remaining bytes are
fixed: session id 0, the `00 00 00 14` constant, action id 7, zero
reserved bytes). -/
def respBufWith (cm src ft sz fmt dpi fo : Nat) : List Nat :=
  [0, 0, 0x80, 0, 0, 0, 0, 0, 0, 0, 0, 0x14, 0, 0, 0, 7,
   0, 0, 0, 0, 0, 0, 0, cm, src, ft, sz, fmt, dpi, 0, 0, 0, fo, 0, 0, 0]

/-- The `prev_len` accumulator of `Host::new` over a character list: each
character length (1 or 2) is packed into the low two bits of a `u8`,
shifting the previous entries up. -/
def packLens (p : Nat) (s : List Nat) : Nat :=
  s.foldl (fun a c => a * 4 % 256 + lenUtf16 c) p

/-- The identity payload of spec scenario 2:
`00 20` then `MFG:Canon;MDL:Dummy;CLS:IMAGE;`. -/
def identitySample : List Nat :=
  [0x00, 0x20, 0x4d, 0x46, 0x47, 0x3a, 0x43, 0x61, 0x6e, 0x6f, 0x6e, 0x3b,
   0x4d, 0x44, 0x4c, 0x3a, 0x44, 0x75, 0x6d, 0x6d, 0x79, 0x3b, 0x43, 0x4c,
   0x53, 0x3a, 0x49, 0x4d, 0x41, 0x47, 0x45, 0x3b]

/-! # Theorems -/

theorem padDigits_length {w n : Nat} (h : n < 10 ^ w) :
    (padDigits w n).length = w := by
  have hle : (Nat.digits 10 n).length ≤ w := by
    rcases eq_or_ne n 0 with rfl | hn
    · simp
    · have hlog := Nat.log_lt_of_lt_pow hn h
      rw [Nat.digits_len 10 n (by norm_num) hn]
      omega
  simp [padDigits]
  omega

theorem formatDatetime_length {dt : DateTime} (hy : dt.year < 10000)
    (hmo : dt.month < 100) (hd : dt.day < 100) (hh : dt.hour < 100)
    (hmi : dt.minute < 100) (hs : dt.second < 100) :
    (formatDatetime dt).length = 14 := by
  have h4 : (10 : Nat) ^ 4 = 10000 := by norm_num
  have h2 : (10 : Nat) ^ 2 = 100 := by norm_num
  simp [formatDatetime, padDigits_length (h4 ▸ hy), padDigits_length (h2 ▸ hmo),
    padDigits_length (h2 ▸ hd), padDigits_length (h2 ▸ hh),
    padDigits_length (h2 ▸ hmi), padDigits_length (h2 ▸ hs)]

/-- Claim C1 counterexample: serializing the `HostOnly` poll command with
the hostname `"H"` produces 76 bytes (2-byte type tag + 74-byte body), not
the 80 bytes the claim states for every variant. -/
theorem claim1_counterexample :
    (commandSerialize (.hostOnly (hostNew [72]))).length = 76 ∧
    commandSize (.hostOnly (hostNew [72])) = 76 ∧ (76 : Nat) ≠ 80 := by
  refine ⟨?_, rfl, by decide⟩
  decide

/-- Claim C1, amended: every `PollCommand` serializes to a 2-byte
big-endian type tag followed by its fixed-size body, and `Serialize::size`
agrees with the serialized length; the totals are 80 bytes for `Empty`
(78-byte body), 76 for `HostOnly` (74), 116 for `Full` (114), and 100 for
`Reset` (98). -/
theorem claim1_sizes (c : Command) (hh : commandHostLen c)
    (hd : commandDatetimeBounded c) :
    (commandSerialize c).length = commandSize c ∧
    commandSize c = (match c with
      | .empty => 80
      | .hostOnly _ => 76
      | .full _ _ _ => 116
      | .reset _ _ _ => 100) := by
  cases c with
  | empty => exact ⟨by decide, rfl⟩
  | hostOnly h =>
    simp only [commandHostLen] at hh
    refine ⟨?_, rfl⟩
    simp [commandSerialize, commandBody, commandSize, u16Be, hh]
  | full sid h dt =>
    simp only [commandHostLen] at hh
    obtain ⟨hy, hmo, hd1, hh1, hmi, hs⟩ := hd
    refine ⟨?_, rfl⟩
    simp [commandSerialize, commandBody, commandSize, u16Be, u32Be, hh,
      formatDatetime_length hy hmo hd1 hh1 hmi hs]
  | reset sid h aid =>
    simp only [commandHostLen] at hh
    refine ⟨?_, rfl⟩
    simp [commandSerialize, commandBody, commandSize, u16Be, u32Be, hh]

/-- Witness for C1: the amended size law evaluated on a concrete
`HostOnly` command and a concrete `Full` command. -/
theorem claim1_sizes_witness :
    ((commandSerialize (.hostOnly (hostNew [72]))).length =
        commandSize (.hostOnly (hostNew [72])) ∧
      commandSize (.hostOnly (hostNew [72])) = 76) ∧
    ((commandSerialize (.full 0x01020304 (hostNew [72]) ⟨2024, 1, 2, 3, 4, 5⟩)).length =
        commandSize (.full 0x01020304 (hostNew [72]) ⟨2024, 1, 2, 3, 4, 5⟩) ∧
      commandSize (.full 0x01020304 (hostNew [72]) ⟨2024, 1, 2, 3, 4, 5⟩) = 116) :=
  ⟨claim1_sizes (.hostOnly (hostNew [72]))
      (by show (hostNew [72]).bytes.length = 64; decide) trivial,
   claim1_sizes (.full 0x01020304 (hostNew [72]) ⟨2024, 1, 2, 3, 4, 5⟩)
     (by show (hostNew [72]).bytes.length = 64; decide)
     (by show 2024 < 10000 ∧ 1 < 100 ∧ 2 < 100 ∧ 3 < 100 ∧ 4 < 100 ∧ 5 < 100; decide)⟩

/-- Claim C2 (code bug): the identity round trip fails.  `Serialize`
writes `as_str_len` (the text length, excluding the two length bytes) into
the length field, while `Deserialize` (and the in-repo test vector)
treat the field as including itself and read two bytes fewer: decoding
the encoding of the single-pair mapping `{"A" -> "B"}` yields
`{"A" -> ""}` with 4 bytes consumed instead of the original mapping. -/
theorem claim2_identity_roundtrip_failure :
    identitySerialize [([65], [66])] = [0, 4, 65, 58, 66, 59] ∧
    identityDeserialize (identitySerialize [([65], [66])]) =
      .ok ([([65], [])], 4) ∧
    [([65], [])] ≠ [([65], [66])] := by
  refine ⟨rfl, rfl, by decide⟩

/-- Claim C4 counterexample: decoding the identity payload of spec
scenario 2 consumes 32 bytes (the declared `0x0020` length includes the
two length bytes), not the 34 bytes the claim states. -/
theorem claim4_counterexample :
    (∃ m, identityDeserialize identitySample = .ok (m, 32)) ∧
    ∀ m, identityDeserialize identitySample ≠ .ok (m, 34) := by
  constructor
  · exact ⟨[([77, 70, 71], [67, 97, 110, 111, 110]),
      ([77, 68, 76], [68, 117, 109, 109, 121]),
      ([67, 76, 83], [73, 77, 65, 71, 69])], rfl⟩
  · intro m h
    have : (32 : Nat) = 34 := by
      have hr : identityDeserialize identitySample =
          .ok ([([77, 70, 71], [67, 97, 110, 111, 110]),
            ([77, 68, 76], [68, 117, 109, 109, 121]),
            ([67, 76, 83], [73, 77, 65, 71, 69])], 32) := rfl
      rw [hr] at h
      exact (Prod.mk.injEq _ _ _ _ ▸ (Except.ok.injEq _ _ ▸ h)).2
    exact absurd this (by decide)

/-- Claim C4, amended: decoding the identity payload
`00 20 4D 46 47 ... 3B` yields the mapping
`{MFG -> Canon, MDL -> Dummy, CLS -> IMAGE}` (keys and values as UTF-8
bytes, in wire order) and reports 32 bytes consumed. -/
theorem claim4_identity_sample :
    identityDeserialize identitySample =
      .ok ([([0x4d, 0x46, 0x47], [0x43, 0x61, 0x6e, 0x6f, 0x6e]),
        ([0x4d, 0x44, 0x4c], [0x44, 0x75, 0x6d, 0x6d, 0x79]),
        ([0x43, 0x4c, 0x53], [0x49, 0x4d, 0x41, 0x47, 0x45])], 32) := rfl

/-- Claim C6 counterexample: with `backoff_factor = 1.0` (the binary32
triple `(+, 2^23, -23)`, whose rational value is exactly 1) and
`backoff_maximum = 2^25`, the error transition from `Backoff(16777217)`
yields `Backoff(16777216)`: the conversion of `16777217 = 2^24 + 1` to
binary32 rounds to `2^24`.  The claim's formula
`min(backoff_maximum, floor(d * backoff_factor))` gives
`min(2^25, 16777217) = 16777217` instead. -/
theorem claim6_counterexample :
    (F32.toRat ⟨false, 2 ^ 23, -23⟩) = 1 ∧
    transitErr ⟨5, ⟨false, 2 ^ 23, -23⟩, 33554432⟩ (.backoff 16777217) =
      .backoff 16777216 ∧
    min 33554432 16777217 ≠ 16777216 := by
  refine ⟨?_, by decide, by decide⟩
  simp only [F32.toRat]
  norm_num
  rw [show Int.toNat 23 = 23 from rfl]
  norm_num

/-- Claim C6, amended: the error transition maps `Init` to
`Backoff(initial_max_waiting)` and `Poll` to `Init`; `Backoff(d)` maps to
`Backoff(min(backoff_maximum, t))` where `t` is `d` converted to IEEE
binary32 (round-to-nearest-even), multiplied by `backoff_factor` in
binary32 arithmetic, and truncated toward zero with saturation (the
`(d as f32 * backoff_factor) as u64` of the source); every successful
step from any of the three states yields `Poll`. -/
theorem claim6_transitions (cfg : ListenConfig) (d : Nat) (s : PollState) :
    transitErr cfg .init = .backoff cfg.initialMaxWaiting ∧
    transitErr cfg .poll = .init ∧
    transitErr cfg (.backoff d) =
      .backoff (min cfg.backoffMaximum
        (f32ToU64 (f32Mul (f32OfU64 d) cfg.backoffFactor))) ∧
    nextOkState s = .poll := by
  refine ⟨rfl, rfl, rfl, ?_⟩
  cases s <;> rfl

theorem sendN_sequence_aux (n : Nat) :
    ∀ s, s < 65536 → (sendN ⟨s⟩ n).sequence = (s + n) % 65536 := by
  induction n with
  | zero => intro s hs; simp [sendN, Nat.mod_eq_of_lt hs]
  | succ n ih =>
    intro s hs
    have step : sendStep ⟨s⟩ true = ⟨(s + 1) % 65536⟩ := rfl
    calc (sendN ⟨s⟩ (n + 1)).sequence
        = (sendN ⟨(s + 1) % 65536⟩ n).sequence := by rw [sendN, step]
      _ = ((s + 1) % 65536 + n) % 65536 := ih _ (Nat.mod_lt _ (by norm_num))
      _ = (s + (n + 1)) % 65536 := by rw [Nat.mod_add_mod]; ring_nf

/-- Claim C7: the channel's sequence counter starts at 0; a successful
send increments it by exactly 1 (wrapping at 2^16) while a failed send
leaves it unchanged; the emitted datagram carries the pre-increment
counter in the big-endian sequence field at bytes 8..10; after `N`
successful sends from a fresh channel the counter (and hence the on-wire
sequence field of the next packet) is `N mod 2^16`; `reset_sequence` sets
the counter back to 0. -/
theorem claim7_sequence (ch : Channel) (n : Nat) (pt : PayloadType)
    (payload : List Nat) :
    channelNew.sequence = 0 ∧
    readBe16 (channelDatagram ch.sequence pt payload) 8 = ch.sequence % 65536 ∧
    (sendStep ch true).sequence = (ch.sequence + 1) % 65536 ∧
    sendStep ch false = ch ∧
    (sendN channelNew n).sequence = n % 65536 ∧
    readBe16 (channelDatagram (sendN channelNew n).sequence pt payload) 8 =
      n % 65536 ∧
    (resetSequence ch).sequence = 0 := by
  have hwire : ∀ s, readBe16 (channelDatagram s pt payload) 8 = s % 65536 := by
    intro s
    simp [channelDatagram, packetSerialize, rawHeaderBytes, u16Be, u32Be,
      readBe16, List.getD]
    omega
  have hN : (sendN channelNew n).sequence = n % 65536 := by
    have := sendN_sequence_aux n 0 (by norm_num)
    simpa using this
  exact ⟨rfl, hwire ch.sequence, rfl, rfl, hN,
    by rw [hN, hwire, Nat.mod_mod_of_dvd _ dvd_rfl], rfl⟩

/-- Claim C3 counterexample: decoding a header whose `packet_type` byte is
the undefined value 3 fails with `InvalidByte{byte: 3, offset: 0}`: the
source does not adjust the error offset of the `packet_type` conversion,
so it is not the field's byte offset 4 that the claim requires. -/
theorem claim3_counterexample :
    headerDeserialize
        ([0x42, 0x4a, 0x4e, 0x50] ++ [3, 1, 0, 0, 0, 0, 0, 0, 0, 0, 0, 0]) =
      .error (.invalidFormat (.invalidByte 3 0 "unknown packet type")) ∧
    (0 : Nat) ≠ 4 := ⟨rfl, by decide⟩

/-- Claim C3, amended: for a byte `b` outside the defined set of an
enum-valued wire field, decoding fails, but the reported position depends
on the field: `payload_type` reports `InvalidByte` at its offset 5;
`packet_type` and all seven interrupt-descriptor enums (color mode,
source, feeder type, page size, format, DPI, feeder orientation) report
`InvalidByte` with offset 0 (their conversions are never
offset-adjusted); the 16-bit poll type reports `InvalidSlice` over span
0..2 rather than `InvalidByte`. -/
theorem claim3_enum_errors :
    (∀ b rest, rest.length = 11 → b ≠ 0x01 → b ≠ 0x02 → b ≠ 0x81 → b ≠ 0x82 →
      headerDeserialize ([0x42, 0x4a, 0x4e, 0x50] ++ b :: rest) =
        .error (.invalidFormat (.invalidByte b 0 "unknown packet type"))) ∧
    (∀ b rest (pt : PacketType), rest.length = 10 → b ≠ 0x01 → b ≠ 0x02 →
      b ≠ 0x10 → b ≠ 0x11 → b ≠ 0x20 → b ≠ 0x21 → b ≠ 0x30 → b ≠ 0x32 →
      headerDeserialize ([0x42, 0x4a, 0x4e, 0x50] ++ pt.toByte :: b :: rest) =
        .error (.invalidFormat (.invalidByte b 5 "unknown payload type"))) ∧
    (∀ b1 b2 rest, b1 * 256 + b2 ≠ 0x00 → b1 * 256 + b2 ≠ 0x01 →
      b1 * 256 + b2 ≠ 0x02 → b1 * 256 + b2 ≠ 0x05 →
      commandDeserialize (b1 :: b2 :: rest) =
        .error (.invalidFormat (.invalidSlice 0 2 "unknown poll type"))) ∧
    (∀ b, b ≠ 0x01 → b ≠ 0x02 →
      responseDeserialize (respBufWith b 1 0 1 1 1 0) =
        .error (.invalidFormat (.invalidByte b 0 "unknown color mode"))) ∧
    (∀ b, b ≠ 0x01 → b ≠ 0x02 →
      responseDeserialize (respBufWith 1 b 0 1 1 1 0) =
        .error (.invalidFormat (.invalidByte b 0 "unknown source"))) ∧
    (∀ b, b ≠ 0x00 → b ≠ 0x01 → b ≠ 0x02 →
      responseDeserialize (respBufWith 1 1 b 1 1 1 0) =
        .error (.invalidFormat (.invalidByte b 0 "unknown feeder type"))) ∧
    (∀ b, b ≠ 0x01 → b ≠ 0x02 → b ≠ 0x08 → b ≠ 0x09 → b ≠ 0x0b →
      responseDeserialize (respBufWith 1 1 0 b 1 1 0) =
        .error (.invalidFormat (.invalidByte b 0 "unknown page size"))) ∧
    (∀ b, b ≠ 0x01 → b ≠ 0x02 → b ≠ 0x03 → b ≠ 0x04 →
      responseDeserialize (respBufWith 1 1 0 1 b 1 0) =
        .error (.invalidFormat (.invalidByte b 0 "unknown format"))) ∧
    (∀ b, b ≠ 0x01 → b ≠ 0x02 → b ≠ 0x03 → b ≠ 0x04 →
      responseDeserialize (respBufWith 1 1 0 1 1 b 0) =
        .error (.invalidFormat (.invalidByte b 0 "unknown DPI"))) ∧
    (∀ b, b ≠ 0x00 → b ≠ 0x01 → b ≠ 0x02 →
      responseDeserialize (respBufWith 1 1 0 1 1 1 b) =
        .error (.invalidFormat (.invalidByte b 0 "unknown feeder orientation"))) := by
  refine ⟨?_, ?_, ?_, ?_, ?_, ?_, ?_, ?_, ?_, ?_⟩
  · intro b rest hlen h1 h2 h3 h4
    have hL : ([0x42, 0x4a, 0x4e, 0x50] ++ b :: rest).length = 16 := by
      simp [hlen]
    have hmagic : List.take 4 ([0x42, 0x4a, 0x4e, 0x50] ++ b :: rest) =
        [0x42, 0x4a, 0x4e, 0x50] := rfl
    have hb : ([0x42, 0x4a, 0x4e, 0x50] ++ b :: rest).getD 4 0 = b := rfl
    simp only [headerDeserialize, headerSize, hL]
    rw [if_neg (by omega), List.take_of_length_le (le_of_eq hL),
      headerOfBytes, if_pos hmagic, hb]
    simp only [packetTypeOfByte, if_neg h1, if_neg h2, if_neg h3, if_neg h4]
    rfl
  · intro b rest pt hlen h1 h2 h3 h4 h5 h6 h7 h8
    have hL : ([0x42, 0x4a, 0x4e, 0x50] ++ pt.toByte :: b :: rest).length = 16 := by
      simp [hlen]
    have hmagic : List.take 4 ([0x42, 0x4a, 0x4e, 0x50] ++ pt.toByte :: b :: rest) =
        [0x42, 0x4a, 0x4e, 0x50] := rfl
    have hb : ([0x42, 0x4a, 0x4e, 0x50] ++ pt.toByte :: b :: rest).getD 5 0 = b := rfl
    simp only [headerDeserialize, headerSize, hL]
    rw [if_neg (by omega), List.take_of_length_le (le_of_eq hL),
      headerOfBytes, if_pos hmagic, hb]
    have hpt : packetTypeOfByte
        (([0x42, 0x4a, 0x4e, 0x50] ++ pt.toByte :: b :: rest).getD 4 0) = .ok pt := by
      cases pt <;> rfl
    rw [hpt]
    simp only [payloadTypeOfByte, if_neg h1, if_neg h2, if_neg h3, if_neg h4,
      if_neg h5, if_neg h6, if_neg h7, if_neg h8]
    rfl
  · intro b1 b2 rest h0 h1 h2 h5
    have hv : readBe16 (b1 :: b2 :: rest) 0 = b1 * 256 + b2 := rfl
    simp only [commandDeserialize]
    rw [if_neg (by simp), hv]
    simp only [pollTypeOfU16, if_neg h0, if_neg h1, if_neg h2, if_neg h5]
  · intro b h1 h2
    have hL : (respBufWith b 1 0 1 1 1 0).length = 36 := by simp [respBufWith]
    have hstatus : readBe32 (respBufWith b 1 0 1 1 1 0) 0 = 0x8000 := by norm_num [respBufWith, readBe32]
    have hdesc : ((respBufWith b 1 0 1 1 1 0).drop 16).take 20 = [0, 0, 0, 0, 0, 0, 0, b, 1, 0, 1, 1, 1, 0, 0, 0, 0, 0, 0, 0] := by simp [respBufWith]
    simp only [responseDeserialize, responseSize, hL]
    rw [if_neg (by omega), List.take_of_length_le (le_of_eq hL), responseOfBytes,
      hstatus, if_pos (by decide), hdesc]
    simp [interruptOfBytes, Except.bind, Except.map, colorModeOfByte, sourceOfByte,
      sizeOfByte, formatOfByte, dpiOfByte, feederTypeOfByte, feederOrientationOfByte, h1, h2]
    rfl
  · intro b h1 h2
    have hL : (respBufWith 1 b 0 1 1 1 0).length = 36 := by simp [respBufWith]
    have hstatus : readBe32 (respBufWith 1 b 0 1 1 1 0) 0 = 0x8000 := by norm_num [respBufWith, readBe32]
    have hdesc : ((respBufWith 1 b 0 1 1 1 0).drop 16).take 20 = [0, 0, 0, 0, 0, 0, 0, 1, b, 0, 1, 1, 1, 0, 0, 0, 0, 0, 0, 0] := by simp [respBufWith]
    simp only [responseDeserialize, responseSize, hL]
    rw [if_neg (by omega), List.take_of_length_le (le_of_eq hL), responseOfBytes,
      hstatus, if_pos (by decide), hdesc]
    simp [interruptOfBytes, Except.bind, Except.map, colorModeOfByte, sourceOfByte,
      sizeOfByte, formatOfByte, dpiOfByte, feederTypeOfByte, feederOrientationOfByte, h1, h2]
    rfl
  · intro b h0 h1 h2
    have hL : (respBufWith 1 1 b 1 1 1 0).length = 36 := by simp [respBufWith]
    have hstatus : readBe32 (respBufWith 1 1 b 1 1 1 0) 0 = 0x8000 := by norm_num [respBufWith, readBe32]
    have hdesc : ((respBufWith 1 1 b 1 1 1 0).drop 16).take 20 = [0, 0, 0, 0, 0, 0, 0, 1, 1, b, 1, 1, 1, 0, 0, 0, 0, 0, 0, 0] := by simp [respBufWith]
    simp only [responseDeserialize, responseSize, hL]
    rw [if_neg (by omega), List.take_of_length_le (le_of_eq hL), responseOfBytes,
      hstatus, if_pos (by decide), hdesc]
    simp [interruptOfBytes, Except.bind, Except.map, colorModeOfByte, sourceOfByte,
      sizeOfByte, formatOfByte, dpiOfByte, feederTypeOfByte, feederOrientationOfByte, h0, h1, h2]
    rfl
  · intro b h1 h2 h8 h9 hb
    have hL : (respBufWith 1 1 0 b 1 1 0).length = 36 := by simp [respBufWith]
    have hstatus : readBe32 (respBufWith 1 1 0 b 1 1 0) 0 = 0x8000 := by norm_num [respBufWith, readBe32]
    have hdesc : ((respBufWith 1 1 0 b 1 1 0).drop 16).take 20 = [0, 0, 0, 0, 0, 0, 0, 1, 1, 0, b, 1, 1, 0, 0, 0, 0, 0, 0, 0] := by simp [respBufWith]
    simp only [responseDeserialize, responseSize, hL]
    rw [if_neg (by omega), List.take_of_length_le (le_of_eq hL), responseOfBytes,
      hstatus, if_pos (by decide), hdesc]
    simp [interruptOfBytes, Except.bind, Except.map, colorModeOfByte, sourceOfByte,
      sizeOfByte, formatOfByte, dpiOfByte, feederTypeOfByte, feederOrientationOfByte, h1, h2, h8, h9, hb]
    rfl
  · intro b h1 h2 h3 h4
    have hL : (respBufWith 1 1 0 1 b 1 0).length = 36 := by simp [respBufWith]
    have hstatus : readBe32 (respBufWith 1 1 0 1 b 1 0) 0 = 0x8000 := by norm_num [respBufWith, readBe32]
    have hdesc : ((respBufWith 1 1 0 1 b 1 0).drop 16).take 20 = [0, 0, 0, 0, 0, 0, 0, 1, 1, 0, 1, b, 1, 0, 0, 0, 0, 0, 0, 0] := by simp [respBufWith]
    simp only [responseDeserialize, responseSize, hL]
    rw [if_neg (by omega), List.take_of_length_le (le_of_eq hL), responseOfBytes,
      hstatus, if_pos (by decide), hdesc]
    simp [interruptOfBytes, Except.bind, Except.map, colorModeOfByte, sourceOfByte,
      sizeOfByte, formatOfByte, dpiOfByte, feederTypeOfByte, feederOrientationOfByte, h1, h2, h3, h4]
    rfl
  · intro b h1 h2 h3 h4
    have hL : (respBufWith 1 1 0 1 1 b 0).length = 36 := by simp [respBufWith]
    have hstatus : readBe32 (respBufWith 1 1 0 1 1 b 0) 0 = 0x8000 := by norm_num [respBufWith, readBe32]
    have hdesc : ((respBufWith 1 1 0 1 1 b 0).drop 16).take 20 = [0, 0, 0, 0, 0, 0, 0, 1, 1, 0, 1, 1, b, 0, 0, 0, 0, 0, 0, 0] := by simp [respBufWith]
    simp only [responseDeserialize, responseSize, hL]
    rw [if_neg (by omega), List.take_of_length_le (le_of_eq hL), responseOfBytes,
      hstatus, if_pos (by decide), hdesc]
    simp [interruptOfBytes, Except.bind, Except.map, colorModeOfByte, sourceOfByte,
      sizeOfByte, formatOfByte, dpiOfByte, feederTypeOfByte, feederOrientationOfByte, h1, h2, h3, h4]
    rfl
  · intro b h0 h1 h2
    have hL : (respBufWith 1 1 0 1 1 1 b).length = 36 := by simp [respBufWith]
    have hstatus : readBe32 (respBufWith 1 1 0 1 1 1 b) 0 = 0x8000 := by norm_num [respBufWith, readBe32]
    have hdesc : ((respBufWith 1 1 0 1 1 1 b).drop 16).take 20 = [0, 0, 0, 0, 0, 0, 0, 1, 1, 0, 1, 1, 1, 0, 0, 0, b, 0, 0, 0] := by simp [respBufWith]
    simp only [responseDeserialize, responseSize, hL]
    rw [if_neg (by omega), List.take_of_length_le (le_of_eq hL), responseOfBytes,
      hstatus, if_pos (by decide), hdesc]
    simp [interruptOfBytes, Except.bind, Except.map, colorModeOfByte, sourceOfByte,
      sizeOfByte, formatOfByte, dpiOfByte, feederTypeOfByte, feederOrientationOfByte, h0, h1, h2]
    rfl

/-- Witness for C3: every conjunct of the amended claim instantiated at
the concrete out-of-range byte 3 or 255. -/
theorem claim3_enum_errors_witness :
    headerDeserialize
        ([0x42, 0x4a, 0x4e, 0x50] ++ 3 :: [1, 0, 0, 0, 0, 0, 0, 0, 0, 0, 0]) =
      .error (.invalidFormat (.invalidByte 3 0 "unknown packet type")) ∧
    headerDeserialize
        ([0x42, 0x4a, 0x4e, 0x50] ++
          PacketType.scannerCommand.toByte :: 255 :: [0, 0, 0, 0, 0, 0, 0, 0, 0, 0]) =
      .error (.invalidFormat (.invalidByte 255 5 "unknown payload type")) ∧
    commandDeserialize (0 :: 3 :: []) =
      .error (.invalidFormat (.invalidSlice 0 2 "unknown poll type")) ∧
    responseDeserialize (respBufWith 255 1 0 1 1 1 0) =
      .error (.invalidFormat (.invalidByte 255 0 "unknown color mode")) ∧
    responseDeserialize (respBufWith 1 255 0 1 1 1 0) =
      .error (.invalidFormat (.invalidByte 255 0 "unknown source")) ∧
    responseDeserialize (respBufWith 1 1 255 1 1 1 0) =
      .error (.invalidFormat (.invalidByte 255 0 "unknown feeder type")) ∧
    responseDeserialize (respBufWith 1 1 0 255 1 1 0) =
      .error (.invalidFormat (.invalidByte 255 0 "unknown page size")) ∧
    responseDeserialize (respBufWith 1 1 0 1 255 1 0) =
      .error (.invalidFormat (.invalidByte 255 0 "unknown format")) ∧
    responseDeserialize (respBufWith 1 1 0 1 1 255 0) =
      .error (.invalidFormat (.invalidByte 255 0 "unknown DPI")) ∧
    responseDeserialize (respBufWith 1 1 0 1 1 1 255) =
      .error (.invalidFormat (.invalidByte 255 0 "unknown feeder orientation")) := by
  obtain ⟨p1, p2, p3, p4, p5, p6, p7, p8, p9, p10⟩ := claim3_enum_errors
  exact ⟨p1 3 _ rfl (by decide) (by decide) (by decide) (by decide),
    p2 255 _ .scannerCommand rfl (by decide) (by decide) (by decide) (by decide)
      (by decide) (by decide) (by decide) (by decide),
    p3 0 3 [] (by decide) (by decide) (by decide) (by decide),
    p4 255 (by decide) (by decide),
    p5 255 (by decide) (by decide),
    p6 255 (by decide) (by decide) (by decide),
    p7 255 (by decide) (by decide) (by decide) (by decide) (by decide),
    p8 255 (by decide) (by decide) (by decide) (by decide),
    p9 255 (by decide) (by decide) (by decide) (by decide),
    p10 255 (by decide) (by decide) (by decide)⟩

theorem exceptBindOk {e a b : Type} {x : Except e a} {f : a → Except e b}
    {v : b} : x >>= f = .ok v ↔ ∃ w, x = .ok w ∧ f w = .ok v := by
  cases x <;> simp [Bind.bind, Except.bind]

/-- Claim C5: for every 36-byte poll response buffer, if bit `0x00008000`
of the big-endian status word is set, decoding yields no session id, the
action id read from bytes 12..16, and the decoded 20-byte interrupt
descriptor; if the bit is clear, decoding yields the session id read from
bytes 4..8 and neither action id nor interrupt. -/
theorem claim5_response_branches (buf : List Nat) (h36 : buf.length = 36) :
    (readBe32 buf 0 &&& 0x00008000 ≠ 0 →
      ∀ i, interruptOfBytes ((buf.drop 16).take 20) = .ok i →
        responseDeserialize buf =
          .ok (⟨readBe32 buf 0, none, some (readBe32 buf 12), some i⟩, 36)) ∧
    (readBe32 buf 0 &&& 0x00008000 = 0 →
      responseDeserialize buf =
        .ok (⟨readBe32 buf 0, some (readBe32 buf 4), none, none⟩, 36)) := by
  have htake : buf.take 36 = buf := List.take_of_length_le (le_of_eq h36)
  constructor
  · intro hbit i hi
    simp only [responseDeserialize, responseSize, h36]
    rw [if_neg (by omega), htake, responseOfBytes, if_pos hbit, hi]
    rfl
  · intro hbit
    simp only [responseDeserialize, responseSize, h36]
    rw [if_neg (by omega), htake, responseOfBytes,
      if_neg (by rw [hbit]; exact fun h => h rfl)]

/-- Witness for C5: both branches evaluated, on the spec scenario 5
buffer (status `0x8000`, action id 7, color/A4/JPEG/300dpi/flatbed
descriptor) and on an all-zero 36-byte buffer. -/
theorem claim5_response_branches_witness :
    responseDeserialize (respBufWith 1 1 0 1 1 3 0) =
      .ok (⟨0x8000, none, some 7,
        some ⟨.color, .flatbed, none, .a4, .jpeg, .dpi300, none⟩⟩, 36) ∧
    responseDeserialize (List.replicate 36 0) =
      .ok (⟨0, some 0, none, none⟩, 36) := by
  constructor
  · have h := (claim5_response_branches (respBufWith 1 1 0 1 1 3 0)
      (by decide)).1 (by decide)
      ⟨.color, .flatbed, none, .a4, .jpeg, .dpi300, none⟩ rfl
    exact h.trans (by rfl)
  · have h := (claim5_response_branches (List.replicate 36 0) (by decide)).2
      (by decide)
    exact h.trans (by rfl)

/-- Claim C9: `Channel::recv` returns a remote-error result naming the
header's error code exactly when the parsed header has a nonzero error
byte and a zero payload size; in every other case with a parsable header
(including nonzero error with nonzero payload size) it decodes the
payload slice with the caller-chosen decoder. -/
theorem claim9_recv_semantics {α : Type}
    (dec : List Nat → Except ParseError (α × Nat)) (buffer : List Nat) :
    (∀ e, channelRecv dec buffer = .remoteError e ↔
      ∃ h payload, phoParse buffer = .ok (h, payload) ∧ e = h.error ∧
        h.error ≠ 0 ∧ h.payloadSize = 0) ∧
    (∀ h payload, phoParse buffer = .ok (h, payload) →
      (h.error = 0 ∨ 0 < h.payloadSize) →
      channelRecv dec buffer = (match dec payload with
        | .ok (v, _) => .ok v
        | .error e => .parseFailed e)) := by
  constructor
  · intro e
    constructor
    · intro hr
      unfold channelRecv at hr
      cases hp : phoParse buffer with
      | error pe =>
        rw [hp] at hr
        dsimp only at hr
        exact absurd hr (by simp)
      | ok hpair =>
        obtain ⟨h, payload⟩ := hpair
        rw [hp] at hr
        dsimp only at hr
        by_cases hc : h.error = 0 ∨ h.payloadSize > 0
        · rw [if_pos hc] at hr
          cases hd : dec payload with
          | ok v =>
            obtain ⟨v1, v2⟩ := v
            rw [hd] at hr
            dsimp only at hr
            exact absurd hr (by simp)
          | error pe =>
            rw [hd] at hr
            dsimp only at hr
            exact absurd hr (by simp)
        · rw [if_neg hc] at hr
          push_neg at hc
          injection hr with hr2
          exact ⟨h, payload, rfl, hr2.symm, hc.1, by omega⟩
    · rintro ⟨h, payload, hp, he, hne, hsz⟩
      unfold channelRecv
      rw [hp]
      dsimp only
      rw [if_neg (by simp [hsz, hne]), he]
  · intro h payload hp hc
    unfold channelRecv
    rw [hp]
    dsimp only
    rw [if_pos (by omega)]

/-- Witness for C9: a 16-byte datagram with error byte 1 and empty
payload yields the remote-error outcome; a datagram with error 0 carrying
the scenario-2 identity payload decodes it. -/
theorem claim9_recv_semantics_witness :
    channelRecv identityDeserialize
        (rawHeaderBytes ⟨.scannerResponse, .getId, 1, 0, 0, 0⟩) =
      .remoteError 1 ∧
    channelRecv identityDeserialize
        (rawHeaderBytes ⟨.scannerResponse, .getId, 0, 0, 0, 32⟩ ++ identitySample) =
      .ok [([0x4d, 0x46, 0x47], [0x43, 0x61, 0x6e, 0x6f, 0x6e]),
        ([0x4d, 0x44, 0x4c], [0x44, 0x75, 0x6d, 0x6d, 0x79]),
        ([0x43, 0x4c, 0x53], [0x49, 0x4d, 0x41, 0x47, 0x45])] := by
  constructor
  · exact ((claim9_recv_semantics identityDeserialize _).1 1).mpr
      ⟨⟨.scannerResponse, .getId, 1, 0, 0, 0⟩, [], rfl, rfl, by decide, rfl⟩
  · have h := (claim9_recv_semantics identityDeserialize
      (rawHeaderBytes ⟨.scannerResponse, .getId, 0, 0, 0, 32⟩ ++ identitySample)).2
      ⟨.scannerResponse, .getId, 0, 0, 0, 32⟩ identitySample rfl (Or.inl rfl)
    rw [h]
    rfl

/-- Claim C10: in the `Poll` state the external command is launched and a
`Reset` is sent only when the response status equals `0x8000` exactly;
a decoded response whose status has bit `0x8000` set together with any
other bit carries no session id, and stepping on it leaves the stored
session id unchanged, launches nothing and sends no `Reset`. -/
theorem claim10_interrupt_gating (sessionId : Nat) (resp : PollResponse)
    (host : Host) (buf : List Nat) (r : PollResponse) :
    (resp.status ≠ 0x8000 →
      pollRoundStep sessionId resp host =
        ⟨(resp.sessionId).getD sessionId, false, none⟩) ∧
    (resp.status = 0x8000 →
      (pollRoundStep sessionId resp host).launched = resp.interrupt.isSome ∧
      (pollRoundStep sessionId resp host).resetCommand =
        some (.reset ((resp.sessionId).getD sessionId) host
          ((resp.actionId).getD 0))) ∧
    (responseDeserialize buf = .ok (r, 36) → r.status &&& 0x8000 ≠ 0 →
      r.sessionId = none ∧
      (r.status ≠ 0x8000 →
        pollRoundStep sessionId r host = ⟨sessionId, false, none⟩)) := by
  have hgetD : ∀ (o : Option Nat),
      (match o with | some s => s | none => sessionId) = o.getD sessionId := by
    intro o; cases o <;> rfl
  refine ⟨?_, ?_, ?_⟩
  · intro hne
    unfold pollRoundStep
    rw [if_neg hne, hgetD]
  · intro heq
    unfold pollRoundStep
    rw [if_pos heq, hgetD]
    exact ⟨rfl, rfl⟩
  · intro hdec hbit
    have hnone : r.sessionId = none := by
      unfold responseDeserialize at hdec
      by_cases hlen : buf.length < responseSize
      · rw [if_pos hlen] at hdec
        exact absurd hdec (by simp)
      · rw [if_neg hlen] at hdec
        have hob : responseOfBytes (buf.take responseSize) = .ok r := by
          cases hx : responseOfBytes (buf.take responseSize) with
          | error e =>
            rw [hx] at hdec
            dsimp only at hdec
            exact absurd hdec (by simp)
          | ok r2 =>
            rw [hx] at hdec
            dsimp only at hdec
            have h2 := hdec
            simp only [Except.ok.injEq, Prod.mk.injEq] at h2
            rw [h2.1]
        unfold responseOfBytes at hob
        by_cases hsb : readBe32 (buf.take responseSize) 0 &&& 0x00008000 ≠ 0
        · rw [if_pos hsb] at hob
          obtain ⟨i, hi, hok⟩ := exceptBindOk.mp hob
          simp only [Except.ok.injEq] at hok
          rw [← hok]
        · rw [if_neg hsb] at hob
          push_neg at hsb
          simp only [Except.ok.injEq] at hob
          have hst : r.status = readBe32 (buf.take responseSize) 0 := by
            rw [← hob]
          rw [hst] at hbit
          exact absurd hsb hbit
    refine ⟨hnone, fun hne => ?_⟩
    unfold pollRoundStep
    rw [hnone, if_neg hne]

/-- Witness for C10: stepping on the decoded response of a 36-byte buffer
with status `0x18000` (interrupt bit plus another bit) leaves the session
id 5 unchanged, launches nothing and sends no `Reset`, while a response
with status exactly `0x8000` launches and resets. -/
theorem claim10_interrupt_gating_witness :
    (responseDeserialize ([0, 1, 0x80, 0] ++ (respBufWith 1 1 0 1 1 3 0).drop 4) =
      .ok (⟨0x18000, none, some 7,
        some ⟨.color, .flatbed, none, .a4, .jpeg, .dpi300, none⟩⟩, 36)) ∧
    pollRoundStep 5
        ⟨0x18000, none, some 7,
          some ⟨.color, .flatbed, none, .a4, .jpeg, .dpi300, none⟩⟩ ⟨[]⟩ =
      ⟨5, false, none⟩ ∧
    (pollRoundStep 5
        ⟨0x8000, none, some 7,
          some ⟨.color, .flatbed, none, .a4, .jpeg, .dpi300, none⟩⟩ ⟨[]⟩).launched =
        true ∧
    (pollRoundStep 5
        ⟨0x8000, none, some 7,
          some ⟨.color, .flatbed, none, .a4, .jpeg, .dpi300, none⟩⟩ ⟨[]⟩).resetCommand =
      some (.reset 5 ⟨[]⟩ 7) := by
  have hdec : responseDeserialize
      ([0, 1, 0x80, 0] ++ (respBufWith 1 1 0 1 1 3 0).drop 4) =
      .ok (⟨0x18000, none, some 7,
        some ⟨.color, .flatbed, none, .a4, .jpeg, .dpi300, none⟩⟩, 36) := rfl
  refine ⟨hdec, ?_, ?_⟩
  · have h := (claim10_interrupt_gating 5
      ⟨0x18000, none, some 7,
        some ⟨.color, .flatbed, none, .a4, .jpeg, .dpi300, none⟩⟩ ⟨[]⟩
      ([0, 1, 0x80, 0] ++ (respBufWith 1 1 0 1 1 3 0).drop 4)
      ⟨0x18000, none, some 7,
        some ⟨.color, .flatbed, none, .a4, .jpeg, .dpi300, none⟩⟩).2.2
      hdec (by decide)
    exact h.2 (by decide)
  · have h := (claim10_interrupt_gating 5
      ⟨0x8000, none, some 7,
        some ⟨.color, .flatbed, none, .a4, .jpeg, .dpi300, none⟩⟩ ⟨[]⟩ []
      ⟨0x8000, none, some 7,
        some ⟨.color, .flatbed, none, .a4, .jpeg, .dpi300, none⟩⟩).2.1 rfl
    exact ⟨h.1.trans (by rfl), h.2.trans (by rfl)⟩

theorem lenUtf16_bounds (c : Nat) : 1 ≤ lenUtf16 c ∧ lenUtf16 c ≤ 2 := by
  unfold lenUtf16
  split <;> omega

theorem encodeUtf16Char_length (c : Nat) :
    (encodeUtf16Char c).length = lenUtf16 c := by
  unfold encodeUtf16Char lenUtf16
  split <;> rfl

theorem utf16Len_cons (c : Nat) (s : List Nat) :
    utf16Len (c :: s) = lenUtf16 c + utf16Len s := by
  simp [utf16Len]

theorem utf16Len_append (a b : List Nat) :
    utf16Len (a ++ b) = utf16Len a + utf16Len b := by
  simp [utf16Len]

theorem utf16Encode_append (a b : List Nat) :
    utf16Encode (a ++ b) = utf16Encode a ++ utf16Encode b := by
  simp [utf16Encode]

theorem utf16Encode_length (s : List Nat) :
    (utf16Encode s).length = utf16Len s := by
  induction s with
  | nil => rfl
  | cons c cs ih =>
    simp [utf16Encode, utf16Len] at ih ⊢
    rw [encodeUtf16Char_length]
    omega

theorem utf16Len_le_twice (s : List Nat) : utf16Len s ≤ 2 * s.length := by
  induction s with
  | nil => simp [utf16Len]
  | cons c cs ih =>
    rw [utf16Len_cons]
    have := (lenUtf16_bounds c).2
    simp only [List.length_cons]
    omega

theorem writeAt_length {buf : List Nat} {pos : Nat} (xs : List Nat)
    (h : pos + xs.length ≤ buf.length) :
    (writeAt buf pos xs).length = buf.length := by
  simp [writeAt]
  omega

theorem writeAt_take_full {buf : List Nat} {pos : Nat} (xs : List Nat)
    (h : pos ≤ buf.length) :
    (writeAt buf pos xs).take (pos + xs.length) = buf.take pos ++ xs := by
  unfold writeAt
  have h1 : (buf.take pos ++ xs).length = pos + xs.length := by
    simp
    omega
  rw [show pos + xs.length = (buf.take pos ++ xs).length from h1.symm]
  exact List.take_left _ _

theorem writeAt_drop_ge {buf : List Nat} {pos m : Nat} (xs : List Nat)
    (hpos : pos ≤ buf.length) (hm : pos + xs.length ≤ m) :
    (writeAt buf pos xs).drop m = buf.drop m := by
  unfold writeAt
  have h1 : (buf.take pos ++ xs).length = pos + xs.length := by
    simp
    omega
  rw [List.drop_append_eq_append_drop,
    List.drop_eq_nil_of_le (by omega : (buf.take pos ++ xs).length ≤ m),
    List.nil_append, List.drop_drop, h1]
  congr 1
  omega

theorem hostLoop_spec (cs : List Nat) :
    ∀ (buf : List Nat) (curLen prevLen : Nat),
    buf.length = 32 → curLen ≤ 32 →
    (curLen + utf16Len cs ≤ 32 →
      hostLoop cs ⟨buf, false, curLen, prevLen⟩ =
        ⟨buf.take curLen ++ utf16Encode cs ++ buf.drop (curLen + utf16Len cs),
          false, curLen + utf16Len cs, packLens prevLen cs⟩) ∧
    (32 < curLen + utf16Len cs →
      ∃ p c rest, cs = p ++ c :: rest ∧
        curLen + utf16Len p ≤ 32 ∧ 32 < curLen + utf16Len p + lenUtf16 c ∧
        hostLoop cs ⟨buf, false, curLen, prevLen⟩ =
          ⟨buf.take curLen ++ utf16Encode p ++ buf.drop (curLen + utf16Len p),
            true, curLen + utf16Len p + lenUtf16 c,
            packLens prevLen (p ++ [c])⟩) := by
  induction cs with
  | nil =>
    intro buf curLen prevLen hbuf hcur
    constructor
    · intro _
      simp [hostLoop, utf16Len, utf16Encode, packLens, List.take_append_drop]
    · intro hover
      simp [utf16Len] at hover
      omega
  | cons c cs ih =>
    intro buf curLen prevLen hbuf hcur
    by_cases hc : curLen + lenUtf16 c > 32
    · have hstep : hostLoop (c :: cs) ⟨buf, false, curLen, prevLen⟩ =
          ⟨buf, true, curLen + lenUtf16 c, prevLen * 4 % 256 + lenUtf16 c⟩ := by
        simp only [hostLoop]
        rw [if_pos hc]
      constructor
      · intro hle
        exfalso
        have h1 := (lenUtf16_bounds c).1
        rw [utf16Len_cons] at hle
        omega
      · intro _
        refine ⟨[], c, cs, rfl, by simpa [utf16Len] using hcur,
          by simpa [utf16Len] using hc, ?_⟩
        rw [hstep]
        simp [utf16Len, utf16Encode, packLens, List.take_append_drop]
    · push_neg at hc
      have hexle : curLen + (encodeUtf16Char c).length ≤ buf.length := by
        rw [encodeUtf16Char_length, hbuf]
        omega
      have hstep : hostLoop (c :: cs) ⟨buf, false, curLen, prevLen⟩ =
          hostLoop cs ⟨writeAt buf curLen (encodeUtf16Char c), false,
            curLen + lenUtf16 c, prevLen * 4 % 256 + lenUtf16 c⟩ := by
        simp only [hostLoop]
        rw [if_neg (by omega)]
      have hbuf2 : (writeAt buf curLen (encodeUtf16Char c)).length = 32 :=
        (writeAt_length _ hexle).trans hbuf
      have hih := ih (writeAt buf curLen (encodeUtf16Char c))
        (curLen + lenUtf16 c) (prevLen * 4 % 256 + lenUtf16 c) hbuf2 (by omega)
      have htake : (writeAt buf curLen (encodeUtf16Char c)).take
          (curLen + lenUtf16 c) = buf.take curLen ++ encodeUtf16Char c := by
        have h := @writeAt_take_full buf curLen (encodeUtf16Char c) (by omega)
        rwa [encodeUtf16Char_length] at h
      constructor
      · intro hle
        rw [utf16Len_cons] at hle
        have hle2 : (curLen + lenUtf16 c) + utf16Len cs ≤ 32 := by omega
        rw [hstep, hih.1 hle2]
        have hdrop : (writeAt buf curLen (encodeUtf16Char c)).drop
            (curLen + lenUtf16 c + utf16Len cs) =
            buf.drop (curLen + lenUtf16 c + utf16Len cs) := by
          apply writeAt_drop_ge
          · omega
          · rw [encodeUtf16Char_length]
            omega
        rw [htake, hdrop]
        rw [show utf16Encode (c :: cs) = encodeUtf16Char c ++ utf16Encode cs
          from rfl, utf16Len_cons]
        rw [show packLens prevLen (c :: cs) =
          packLens (prevLen * 4 % 256 + lenUtf16 c) cs from rfl]
        simp [List.append_assoc, Nat.add_assoc]
      · intro hover
        rw [utf16Len_cons] at hover
        have hover2 : 32 < (curLen + lenUtf16 c) + utf16Len cs := by omega
        obtain ⟨p, c2, rest, hcs, hple, hpc, hres⟩ := hih.2 hover2
        refine ⟨c :: p, c2, rest, by rw [hcs]; rfl, ?_, ?_, ?_⟩
        · rw [utf16Len_cons]
          omega
        · rw [utf16Len_cons]
          omega
        · rw [hstep, hres]
          have hdrop : (writeAt buf curLen (encodeUtf16Char c)).drop
              (curLen + lenUtf16 c + utf16Len p) =
              buf.drop (curLen + lenUtf16 c + utf16Len p) := by
            apply writeAt_drop_ge
            · omega
            · rw [encodeUtf16Char_length]
              omega
          rw [htake, hdrop]
          rw [show utf16Encode (c :: p) = encodeUtf16Char c ++ utf16Encode p
            from rfl, utf16Len_cons]
          rw [show packLens prevLen ((c :: p) ++ [c2]) =
            packLens (prevLen * 4 % 256 + lenUtf16 c) (p ++ [c2]) from rfl]
          simp [List.append_assoc, Nat.add_assoc]

theorem packLens_extract (p : Nat) (ds : List Nat) (a b c d : Nat) :
    packLens p (ds ++ [a, b, c, d]) % 4 = lenUtf16 d ∧
    packLens p (ds ++ [a, b, c, d]) / 4 % 4 = lenUtf16 c ∧
    packLens p (ds ++ [a, b, c, d]) / 16 % 4 = lenUtf16 b ∧
    packLens p (ds ++ [a, b, c, d]) / 64 % 4 = lenUtf16 a := by
  have ha := lenUtf16_bounds a
  have hb := lenUtf16_bounds b
  have hc := lenUtf16_bounds c
  have hd := lenUtf16_bounds d
  have hfold : packLens p (ds ++ [a, b, c, d]) =
      (((packLens p ds * 4 % 256 + lenUtf16 a) * 4 % 256 + lenUtf16 b) * 4 % 256
        + lenUtf16 c) * 4 % 256 + lenUtf16 d := by
    simp [packLens, List.foldl_append]
  rw [hfold]
  omega

theorem backOff_spec (fuel S prevLen l1 l2 l3 l4 : Nat) (hf : 4 ≤ fuel)
    (h4 : prevLen % 4 = l4) (h3 : prevLen / 4 % 4 = l3)
    (h2 : prevLen / 16 % 4 = l2) (h1 : prevLen / 64 % 4 = l1)
    (hS : 29 < S) (hend : S - l4 - l3 - l2 - l1 ≤ 29) :
    (backOff fuel S prevLen).1 =
      if S - l4 ≤ 29 then S - l4
      else if S - l4 - l3 ≤ 29 then S - l4 - l3
      else if S - l4 - l3 - l2 ≤ 29 then S - l4 - l3 - l2
      else S - l4 - l3 - l2 - l1 := by
  have hlast : ∀ (g v pr : Nat), v ≤ 29 → (backOff g v pr).1 = v := by
    intro g v pr hv
    cases g with
    | zero => rfl
    | succ g2 =>
      simp only [backOff]
      rw [if_neg (by omega)]
  have e44 : (4 : Nat) * 4 = 16 := rfl
  have e164 : (16 : Nat) * 4 = 64 := rfl
  have e2 : prevLen / 4 / 4 % 4 = l2 := by
    rw [Nat.div_div_eq_div_mul, e44]
    exact h2
  have e1 : prevLen / 4 / 4 / 4 % 4 = l1 := by
    rw [Nat.div_div_eq_div_mul, e44, Nat.div_div_eq_div_mul, e164]
    exact h1
  obtain ⟨f, rfl⟩ : ∃ g, fuel = g + 4 := ⟨fuel - 4, by omega⟩
  rw [show f + 4 = f + 3 + 1 from rfl]
  simp only [backOff]
  rw [h4, h3, e2, e1]
  rw [if_pos (by omega)]
  by_cases c1 : S - l4 ≤ 29
  · rw [if_neg (by omega)]
    simp [c1]
  · rw [if_pos (by omega)]
    by_cases c2 : S - l4 - l3 ≤ 29
    · rw [if_neg (by omega)]
      simp [c1, c2]
    · rw [if_pos (by omega)]
      by_cases c3 : S - l4 - l3 - l2 ≤ 29
      · rw [if_neg (by omega)]
        simp [c1, c2, c3]
      · rw [if_pos (by omega)]
        rw [hlast f _ _ (by omega)]
        simp [c1, c2, c3]

theorem longestFit_eq_prefix :
    ∀ (q : List Nat) (limit c : Nat) (rest : List Nat),
    utf16Len q ≤ limit → limit < utf16Len q + lenUtf16 c →
    longestFit limit (q ++ c :: rest) = q := by
  intro q
  induction q with
  | nil =>
    intro limit c rest h1 h2
    simp only [utf16Len, List.map_nil, List.sum_nil, Nat.zero_add] at h2
    simp only [List.nil_append, longestFit]
    rw [if_neg (by omega)]
  | cons a q ih =>
    intro limit c rest h1 h2
    rw [utf16Len_cons] at h1 h2
    have ha := (lenUtf16_bounds a).1
    have hq := Nat.zero_le (utf16Len q)
    rw [show (a :: q) ++ c :: rest = a :: (q ++ c :: rest) from rfl]
    simp only [longestFit]
    rw [if_pos (by omega), ih (limit - lenUtf16 a) c rest (by omega) (by omega)]

theorem exists_last_three (l : List Nat) (h : 3 ≤ l.length) :
    ∃ ds x y z, l = ds ++ [x, y, z] := by
  have hlen : l.reverse.length = l.length := List.length_reverse l
  rcases hl : l.reverse with _ | ⟨z, _ | ⟨y, _ | ⟨x, t⟩⟩⟩
  · rw [hl] at hlen
    simp at hlen
    omega
  · rw [hl] at hlen
    simp at hlen
    omega
  · rw [hl] at hlen
    simp at hlen
    omega
  · refine ⟨t.reverse, x, y, z, ?_⟩
    have h2 := congrArg List.reverse hl
    rw [List.reverse_reverse] at h2
    rw [h2]
    simp

theorem utf16Encode_take_prefix (q t : List Nat) :
    (utf16Encode (q ++ t)).take (utf16Len q) = utf16Encode q := by
  rw [utf16Encode_append,
    show utf16Len q = (utf16Encode q).length from (utf16Encode_length q).symm]
  exact List.take_left _ _

theorem flatMap_u16Be_length (l : List Nat) :
    (l.flatMap u16Be).length = 2 * l.length := by
  induction l with
  | nil => rfl
  | cons a l ih =>
    simp only [List.flatMap_cons, List.length_append, List.length_cons, ih]
    simp [u16Be]
    omega

theorem hostFinish (ep : List Nat) (F : Nat) (hF3 : F + 3 ≤ 32)
    (hple : F ≤ ep.length) (hlep : ep.length ≤ 32) :
    writeAt (writeAt (ep ++ List.replicate (32 - ep.length) 0) F [46, 46, 46])
      (F + 3) (List.replicate (32 - (F + 3)) 0) =
    ep.take F ++ [46, 46, 46] ++ List.replicate (32 - (F + 3)) 0 := by
  set B := ep ++ List.replicate (32 - ep.length) 0 with hB
  have hBlen : B.length = 32 := by
    simp [hB]
    omega
  have hW1 : writeAt B F [46, 46, 46] =
      B.take F ++ [46, 46, 46] ++ B.drop (F + 3) := by
    simp [writeAt]
  have htakeF : (B.take F).length = F := by
    simp
    omega
  rw [hW1]
  unfold writeAt
  have hfront : (B.take F ++ [46, 46, 46] ++ B.drop (F + 3)).take (F + 3) =
      B.take F ++ [46, 46, 46] := by
    have hlen2 : (B.take F ++ [46, 46, 46]).length = F + 3 := by
      simp [htakeF]
    rw [show F + 3 = (B.take F ++ [46, 46, 46]).length from hlen2.symm]
    exact List.take_left _ _
  have hback : (B.take F ++ [46, 46, 46] ++ B.drop (F + 3)).drop
      (F + 3 + (List.replicate (32 - (F + 3)) 0).length) = [] := by
    apply List.drop_eq_nil_of_le
    simp [htakeF]
    omega
  rw [hfront, hback]
  have hBt : B.take F = ep.take F := List.take_append_of_le_length hple
  rw [hBt]
  simp

/-- Claim C8: `Host::new(s)` always stores exactly 64 bytes (32 UTF-16
code units, each written big-endian); when the UTF-16 encoding of `s`
exceeds 32 code units, the stored units are the encoding of the longest
prefix of `s` that fits in 29 code units without splitting a surrogate
pair, followed immediately by exactly three `.` (0x2E) units, with all
remaining units zero. -/
theorem claim8_host_truncation (s : List Nat) :
    (hostNew s).bytes.length = 64 ∧
    (32 < utf16Len s →
      hostNewUnits s =
        utf16Encode (longestFit 29 s) ++ [46, 46, 46] ++
          List.replicate (32 - (utf16Len (longestFit 29 s) + 3)) 0) := by
  have hspec := hostLoop_spec s (List.replicate 32 0) 0 0 (by simp) (by omega)
  by_cases hover : 32 < utf16Len s
  · obtain ⟨p, c, rest, hs, hple0, hpc0, hres⟩ := hspec.2 (by omega)
    simp only [Nat.zero_add, List.take_zero, List.nil_append] at hple0 hpc0 hres
    have hdropRep : (List.replicate 32 0).drop (utf16Len p) =
        List.replicate (32 - utf16Len p) (0 : Nat) := by
      rw [List.drop_replicate]
    rw [hdropRep] at hres
    have hcb := lenUtf16_bounds c
    have h31 : 31 ≤ utf16Len p := by omega
    have hlen16 : 16 ≤ p.length := by
      have := utf16Len_le_twice p
      omega
    obtain ⟨ds, x, y, z, hp⟩ := exists_last_three p (by omega)
    have hxb := lenUtf16_bounds x
    have hyb := lenUtf16_bounds y
    have hzb := lenUtf16_bounds z
    have hxyz : utf16Len [x, y, z] = lenUtf16 x + lenUtf16 y + lenUtf16 z := by
      simp [utf16Len]
      omega
    have hLp : utf16Len p = utf16Len ds + lenUtf16 x + lenUtf16 y + lenUtf16 z := by
      rw [hp, utf16Len_append, hxyz]
      omega
    have hpc4 : p ++ [c] = ds ++ [x, y, z, c] := by
      rw [hp]
      simp
    have hext := packLens_extract 0 ds x y z c
    rw [← hpc4] at hext
    set S := utf16Len p + lenUtf16 c with hSdef
    set prev := packLens 0 (p ++ [c]) with hprev
    have hbo := backOff_spec S S prev (lenUtf16 x) (lenUtf16 y) (lenUtf16 z)
      (lenUtf16 c) (by omega) hext.1 hext.2.1 hext.2.2.1 hext.2.2.2
      (by omega) (by omega)
    set F := (backOff S S prev).1 with hFdef
    have hunits : hostNewUnits s =
        writeAt (writeAt (utf16Encode p ++
          List.replicate (32 - (utf16Encode p).length) 0) F [46, 46, 46])
          (F + 3) (List.replicate (32 - (F + 3)) 0) := by
      simp only [hostNewUnits]
      rw [hres]
      simp only [utf16Encode_length]
      rfl
    have key : ∀ (q tail : List Nat) (nc : Nat) (rest2 : List Nat),
        p = q ++ tail → s = q ++ nc :: rest2 → F = utf16Len q →
        utf16Len q ≤ 29 → 29 < utf16Len q + lenUtf16 nc →
        hostNewUnits s =
          utf16Encode (longestFit 29 s) ++ [46, 46, 46] ++
            List.replicate (32 - (utf16Len (longestFit 29 s) + 3)) 0 := by
      intro q tail nc rest2 hpq hsq hFq hq29 hnext
      have hlf : longestFit 29 s = q := by
        rw [hsq]
        exact longestFit_eq_prefix q 29 nc rest2 hq29 hnext
      have hqp : utf16Len q ≤ utf16Len p := by
        rw [hpq, utf16Len_append]
        omega
      rw [hlf, hunits, hFq]
      have hfin := hostFinish (utf16Encode p) (utf16Len q) (by omega)
        (by rw [utf16Encode_length]; omega) (by rw [utf16Encode_length]; omega)
      rw [hfin]
      have htk : (utf16Encode p).take (utf16Len q) = utf16Encode q := by
        rw [hpq]
        exact utf16Encode_take_prefix q tail
      rw [htk]
    have hmain : hostNewUnits s =
        utf16Encode (longestFit 29 s) ++ [46, 46, 46] ++
          List.replicate (32 - (utf16Len (longestFit 29 s) + 3)) 0 ∧
        utf16Len (longestFit 29 s) ≤ 29 := by
      have hLds2 : utf16Len (ds ++ [x, y]) = utf16Len ds + lenUtf16 x + lenUtf16 y := by
        rw [utf16Len_append]
        simp [utf16Len]
        omega
      have hLds1 : utf16Len (ds ++ [x]) = utf16Len ds + lenUtf16 x := by
        rw [utf16Len_append]
        simp [utf16Len]
      by_cases d1 : utf16Len p ≤ 29
      · have hF : F = utf16Len p := by
          rw [hbo, if_pos (by omega)]
          omega
        have h := key p [] c rest (by simp) hs hF d1 (by omega)
        refine ⟨h, ?_⟩
        have : longestFit 29 s = p := by
          rw [hs]
          exact longestFit_eq_prefix p 29 c rest d1 (by omega)
        rw [this]
        omega
      · by_cases d2 : utf16Len p - lenUtf16 z ≤ 29
        · have hF : F = utf16Len (ds ++ [x, y]) := by
            rw [hbo, if_neg (by omega), if_pos (by omega), hLds2]
            omega
          have hq29 : utf16Len (ds ++ [x, y]) ≤ 29 := by
            rw [hLds2]
            omega
          have hnext : 29 < utf16Len (ds ++ [x, y]) + lenUtf16 z := by
            rw [hLds2]
            omega
          have hsq : s = (ds ++ [x, y]) ++ z :: (c :: rest) := by
            rw [hs, hp]
            simp
          have h := key (ds ++ [x, y]) [z] z (c :: rest)
            (by rw [hp]; simp) hsq hF hq29 hnext
          refine ⟨h, ?_⟩
          have : longestFit 29 s = ds ++ [x, y] := by
            rw [hsq]
            exact longestFit_eq_prefix _ 29 z _ hq29 hnext
          rw [this]
          exact hq29
        · by_cases d3 : utf16Len p - lenUtf16 z - lenUtf16 y ≤ 29
          · have hF : F = utf16Len (ds ++ [x]) := by
              rw [hbo, if_neg (by omega), if_neg (by omega), if_pos (by omega),
                hLds1]
              omega
            have hq29 : utf16Len (ds ++ [x]) ≤ 29 := by
              rw [hLds1]
              omega
            have hnext : 29 < utf16Len (ds ++ [x]) + lenUtf16 y := by
              rw [hLds1]
              omega
            have hsq : s = (ds ++ [x]) ++ y :: (z :: c :: rest) := by
              rw [hs, hp]
              simp
            have h := key (ds ++ [x]) [y, z] y (z :: c :: rest)
              (by rw [hp]; simp) hsq hF hq29 hnext
            refine ⟨h, ?_⟩
            have : longestFit 29 s = ds ++ [x] := by
              rw [hsq]
              exact longestFit_eq_prefix _ 29 y _ hq29 hnext
            rw [this]
            exact hq29
          · have hF : F = utf16Len ds := by
              rw [hbo, if_neg (by omega), if_neg (by omega), if_neg (by omega)]
              omega
            have hq29 : utf16Len ds ≤ 29 := by omega
            have hnext : 29 < utf16Len ds + lenUtf16 x := by omega
            have hsq : s = ds ++ x :: (y :: z :: c :: rest) := by
              rw [hs, hp]
              simp
            have h := key ds [x, y, z] x (y :: z :: c :: rest) hp hsq hF hq29 hnext
            refine ⟨h, ?_⟩
            have : longestFit 29 s = ds := by
              rw [hsq]
              exact longestFit_eq_prefix _ 29 x _ hq29 hnext
            rw [this]
            exact hq29
    refine ⟨?_, fun _ => hmain.1⟩
    show (hostBytes s).length = 64
    unfold hostBytes
    rw [hmain.1, flatMap_u16Be_length]
    have := hmain.2
    simp [utf16Encode_length]
    omega
  · have h1 := hspec.1 (by omega)
    have hunits : hostNewUnits s =
        utf16Encode s ++ List.replicate (32 - utf16Len s) 0 := by
      simp only [hostNewUnits]
      rw [h1]
      simp only [Nat.zero_add, List.take_zero, List.nil_append,
        List.drop_replicate]
      rfl
    refine ⟨?_, fun h => absurd h hover⟩
    show (hostBytes s).length = 64
    unfold hostBytes
    rw [hunits, flatMap_u16Be_length]
    simp [utf16Encode_length]
    omega

/-- Witness for C8: `Host::new` applied to 36 repetitions of `a` (spec
scenario 3): 64 bytes, and the 29-character prefix followed by three
dots. -/
theorem claim8_host_truncation_witness :
    (hostNew (List.replicate 36 97)).bytes.length = 64 ∧
    hostNewUnits (List.replicate 36 97) =
      utf16Encode (longestFit 29 (List.replicate 36 97)) ++ [46, 46, 46] ++
        List.replicate
          (32 - (utf16Len (longestFit 29 (List.replicate 36 97)) + 3)) 0 :=
  ⟨(claim8_host_truncation (List.replicate 36 97)).1,
   (claim8_host_truncation (List.replicate 36 97)).2 (by decide)⟩

end Bjnp
